import Mathlib

/-!
Verification development for the logo-discovery engine of the scraper
repository (files `scraper_disruptafrica.py`, `african_opportunities_scraper.py`,
`scraper_dy_vc4a.py`).

The engine is shallowly embedded: the parsed HTML document is a tree
(`Html`), BeautifulSoup traversal (`find_all`, `select`, `find`) becomes
pre-order list traversal, and all network effects (`requests` HEAD/GET,
PIL image decoding, the Playwright-rendered DOM) are oracles passed in as
a `Net` structure / an optional rendered tree, so every function is total
and deterministic given its oracles.

Confidence scores, which the Python code keeps as floats built from the
constants 0.05/0.1/0.15/0.2/0.3/0.4/0.6, are modelled exactly as integer
hundredths (5/10/15/20/30/40/60): all comparisons the code performs on
these sums are exact at this granularity, so the integer model agrees
with the float code away from float-rounding knife edges.

String handling is modelled on `List Char` (Python `str` is a sequence of
code points, as is `String.data`); `.lower()` is modelled for ASCII.
-/

/-- Lowercase one character, ASCII range only, modelling Python `str.lower`
on the ASCII attribute values the scraper handles. -/
def lowerChar (c : Char) : Char :=
  if 'A' ≤ c ∧ c ≤ 'Z' then Char.ofNat (c.toNat + 32) else c

/-- Model of Python `s.lower()` (ASCII). -/
def strLower (s : String) : String := String.mk (s.data.map lowerChar)

/-- Model of Python `s.startswith(p)`. -/
def strStartsWith (s p : String) : Bool := p.data.isPrefixOf s.data

/-- Occurrence of `sub` inside `l`, at any position. -/
def subOccurs (sub : List Char) : List Char → Bool
  | [] => sub.isEmpty
  | l@(_ :: rest) => sub.isPrefixOf l || subOccurs sub rest

/-- Model of Python `sub in s` for strings. -/
def strContains (s sub : String) : Bool := subOccurs sub.data s.data

/-- Model of Python `sub in s.lower()`. -/
def strContainsCI (s sub : String) : Bool := strContains (strLower s) sub

/-- Model of Python `len(s)` (count of code points). -/
def strLen (s : String) : Nat := s.data.length

/-- Characters of `l` with leading and trailing whitespace removed. -/
def trimChars (l : List Char) : List Char :=
  ((l.dropWhile Char.isWhitespace).reverse.dropWhile Char.isWhitespace).reverse

/-- Numeric value of a digit string. -/
def digitsVal (l : List Char) : Nat := l.foldl (fun a c => a * 10 + (c.toNat - 48)) 0

/-- Model of Python `int(s)` on strings: optional surrounding whitespace,
optional sign, then decimal digits; `none` models a raised `ValueError`. -/
def pyInt? (s : String) : Option Int :=
  let t := trimChars s.data
  let neg := t.headD ' ' = '-'
  let core := if t.headD ' ' = '-' ∨ t.headD ' ' = '+' then t.drop 1 else t
  if core.length > 0 ∧ core.all Char.isDigit then
    some (if neg then -(digitsVal core : Int) else (digitsVal core : Int))
  else none

/-- Split on a single character, model of Python `s.split('c')`. -/
def splitOnChar (c : Char) : List Char → List (List Char)
  | [] => [[]]
  | x :: xs =>
    let r := splitOnChar c xs
    if x = c then [] :: r
    else match r with
      | [] => [[x]]
      | h :: t => (x :: h) :: t

/-- Whitespace-separated tokens of a string, model of Python `s.split()`
and of BeautifulSoup's splitting of multi-valued attributes. -/
def splitWsAux : List Char → List Char → List String
  | [], acc => if acc.isEmpty then [] else [String.mk acc.reverse]
  | c :: cs, acc =>
    if c.isWhitespace then
      (if acc.isEmpty then [] else [String.mk acc.reverse]) ++ splitWsAux cs []
    else splitWsAux cs (c :: acc)

/-- Whitespace-separated tokens of a string. -/
def splitWs (s : String) : List String := splitWsAux s.data []

/-- Join strings with single spaces, model of Python `' '.join(...)`. -/
def joinSp : List String → String
  | [] => ""
  | [s] => s
  | s :: rest => s ++ " " ++ joinSp rest

/-- First `some` produced by `f` over a list, modelling a Python loop that
returns on its first hit and falls through to `None`. -/
def firstSome {α β : Type} (f : α → Option β) : List α → Option β
  | [] => none
  | x :: xs => match f x with
    | some b => some b
    | none => firstSome f xs

/-- Parsed HTML: an element with tag name, attributes in document order,
and children, or a text node. Mirrors the BeautifulSoup tree the scraper
walks. The `class` attribute is kept as its raw source string. -/
inductive Html where
  | text : String → Html
  | elem : String → List (String × String) → List Html → Html

/-- Tag name of a node (empty for text nodes). -/
def Html.tag : Html → String
  | .text _ => ""
  | .elem t _ _ => t

/-- Attribute list of a node. -/
def Html.attrList : Html → List (String × String)
  | .text _ => []
  | .elem _ a _ => a

/-- Child list of a node. -/
def Html.childList : Html → List Html
  | .text _ => []
  | .elem _ _ cs => cs

/-- First value of an attribute, modelling `tag.get(name)` returning `None`
when absent. -/
def Html.attr? (h : Html) (n : String) : Option String :=
  (h.attrList.find? (fun a => a.1 == n)).map (·.2)

/-- Attribute value with a default, modelling `tag.get(name, d)`. -/
def Html.attrD (h : Html) (n d : String) : String := (h.attr? n).getD d

/-- Whether the attribute is present, modelling `find_all(attr=True)`. -/
def Html.hasAttr (h : Html) (n : String) : Bool := (h.attr? n).isSome

/-- Class tokens of a node: BeautifulSoup splits `class` on whitespace into
a list of individual class names. -/
def Html.classTokens (h : Html) : List String := splitWs (h.attrD "class" "")

/-- Model of `' '.join(tag.get('class', []))` as the scraper computes it. -/
def Html.classJoined (h : Html) : String := joinSp h.classTokens

mutual
/-- Model of `link.get_text(strip=True)`: each descendant string stripped,
then concatenated. -/
def Html.textContent : Html → String
  | .text s => String.mk (trimChars s.data)
  | .elem _ _ cs => Html.textContentList cs

/-- Concatenated stripped text of a list of nodes. -/
def Html.textContentList : List Html → String
  | [] => ""
  | c :: cs => c.textContent ++ Html.textContentList cs
end

mutual
/-- The element nodes of a subtree in document (pre-)order, including the
root itself when it is an element. -/
def nodesOne : Html → List Html
  | .text _ => []
  | .elem t a cs => .elem t a cs :: nodesMany cs
/-- Element nodes of a forest in document order. -/
def nodesMany : List Html → List Html
  | [] => []
  | c :: cs => nodesOne c ++ nodesMany cs
end

/-- Strict descendants of a node in document order, the search space of
BeautifulSoup `tag.find_all` / `tag.select` (which exclude the tag itself). -/
def Html.descendants : Html → List Html
  | .text _ => []
  | .elem _ _ cs => nodesMany cs

/-- Model of `tag.find_all(...)` with a predicate: matching strict
descendants in document order. -/
def Html.findAll (h : Html) (p : Html → Bool) : List Html := h.descendants.filter p

/-- Model of `tag.find(...)`: first matching strict descendant. -/
def Html.findFirst (h : Html) (p : Html → Bool) : Option Html := (h.descendants.filter p).head?

mutual
/-- Element nodes of a subtree paired with their tree paths (child-index
lists), used to model deduplication by CPython object identity `id(elem)`:
two nodes are the same object exactly when they sit at the same path. -/
def pnodesOne (p : List Nat) : Html → List (List Nat × Html)
  | .text _ => []
  | .elem t a cs => (p, .elem t a cs) :: pnodesMany p 0 cs
/-- Pathed element nodes of a forest. -/
def pnodesMany (p : List Nat) (i : Nat) : List Html → List (List Nat × Html)
  | [] => []
  | c :: cs => pnodesOne (p ++ [i]) c ++ pnodesMany p (i + 1) cs
end

mutual
theorem pnodesOne_map_snd : ∀ (p : List Nat) (h : Html), (pnodesOne p h).map (·.2) = nodesOne h
  | _, .text _ => rfl
  | p, .elem t a cs => by
      simp [pnodesOne, nodesOne, pnodesMany_map_snd p 0 cs]
theorem pnodesMany_map_snd : ∀ (p : List Nat) (i : Nat) (cs : List Html),
    (pnodesMany p i cs).map (·.2) = nodesMany cs
  | _, _, [] => rfl
  | p, i, c :: cs => by
      simp [pnodesMany, nodesMany, pnodesOne_map_snd (p ++ [i]) c, pnodesMany_map_snd p (i + 1) cs]
end

mutual
theorem mem_nodesOne_trans : ∀ (a b c : Html), b ∈ nodesOne a → c ∈ nodesOne b → c ∈ nodesOne a
  | .text _, _, _, hb, _ => by simp [nodesOne] at hb
  | .elem t at' cs, b, c, hb, hc => by
      simp only [nodesOne, List.mem_cons] at hb ⊢
      rcases hb with rfl | hb
      · simpa [nodesOne] using hc
      · exact Or.inr (mem_nodesMany_trans cs b c hb hc)
theorem mem_nodesMany_trans : ∀ (l : List Html) (b c : Html),
    b ∈ nodesMany l → c ∈ nodesOne b → c ∈ nodesMany l
  | [], _, _, hb, _ => by simp [nodesMany] at hb
  | x :: xs, b, c, hb, hc => by
      simp only [nodesMany, List.mem_append] at hb ⊢
      rcases hb with hb | hb
      · exact Or.inl (mem_nodesOne_trans x b c hb hc)
      · exact Or.inr (mem_nodesMany_trans xs b c hb hc)
end

theorem mem_nodesOne_of_mem_descendants {a b : Html} (h : b ∈ a.descendants) :
    b ∈ nodesOne a := by
  cases a with
  | text s => simp [Html.descendants] at h
  | elem t at' cs => simp only [Html.descendants] at h; simp [nodesOne, h]

theorem mem_descendants_trans {doc a b : Html} (ha : a ∈ nodesOne doc)
    (hb : b ∈ a.descendants) : b ∈ nodesOne doc :=
  mem_nodesOne_trans doc a b ha (mem_nodesOne_of_mem_descendants hb)

theorem mem_nodesOne_of_findAll {a b : Html} {p : Html → Bool} (h : b ∈ a.findAll p) :
    b ∈ nodesOne a :=
  mem_nodesOne_of_mem_descendants ((List.filter_sublist _).subset h)

theorem findFirst_mem_descendants {a b : Html} {p : Html → Bool}
    (h : a.findFirst p = some b) : b ∈ a.descendants := by
  have := List.mem_of_mem_head? h
  exact (List.filter_sublist _).subset this

/-- The base64 alphabet. -/
def b64Alphabet : List Char :=
  "ABCDEFGHIJKLMNOPQRSTUVWXYZabcdefghijklmnopqrstuvwxyz0123456789+/".data

/-- Character for a 6-bit group. -/
def b64chr (n : Nat) : Char := b64Alphabet.getD n 'A'

/-- 6-bit value of a base64 character. -/
def b64val (c : Char) : Nat := b64Alphabet.indexOf c

/-- Standard base64 encoding of a byte list, model of Python
`base64.b64encode`. -/
def b64encodeL : List Nat → List Char
  | [] => []
  | [a] => [b64chr (a / 4), b64chr (a % 4 * 16), '=', '=']
  | [a, b] => [b64chr (a / 4), b64chr (a % 4 * 16 + b / 16), b64chr (b % 16 * 4), '=']
  | a :: b :: c :: rest =>
    b64chr (a / 4) :: b64chr (a % 4 * 16 + b / 16) :: b64chr (b % 16 * 4 + c / 64) ::
      b64chr (c % 64) :: b64encodeL rest

/-- Standard base64 decoding, model of Python `base64.b64decode` on
well-formed input. -/
def b64decodeL : List Char → List Nat
  | c1 :: c2 :: c3 :: c4 :: rest =>
    if c3 = '=' then [b64val c1 * 4 + b64val c2 / 16]
    else if c4 = '=' then
      [b64val c1 * 4 + b64val c2 / 16, b64val c2 % 16 * 16 + b64val c3 / 4]
    else
      (b64val c1 * 4 + b64val c2 / 16) :: (b64val c2 % 16 * 16 + b64val c3 / 4) ::
        (b64val c3 % 4 * 64 + b64val c4) :: b64decodeL rest
  | _ => []

theorem b64val_b64chr : ∀ n, n < 64 → b64val (b64chr n) = n := by decide

theorem b64chr_ne_eq : ∀ n, n < 64 → b64chr n ≠ '=' := by decide

theorem b64dec1 (a : Nat) : a / 4 * 4 + a % 4 * 16 / 16 = a := by
  have e : a % 4 * 16 / 16 = a % 4 := Nat.mul_div_cancel _ (by norm_num)
  omega

theorem b64dec2a (a b : Nat) (hb : b < 256) :
    a / 4 * 4 + (a % 4 * 16 + b / 16) / 16 = a := by
  have e1 : a % 4 * 16 + b / 16 = b / 16 + a % 4 * 16 := by ring
  have e2 : (b / 16 + a % 4 * 16) / 16 = b / 16 / 16 + a % 4 :=
    Nat.add_mul_div_right _ _ (by norm_num)
  have e3 : b / 16 / 16 = 0 := Nat.div_eq_of_lt (by omega)
  rw [e1, e2, e3]
  omega

theorem b64dec2b (a b : Nat) (hb : b < 256) :
    (a % 4 * 16 + b / 16) % 16 * 16 + b % 16 * 4 / 4 = b := by
  have e1 : a % 4 * 16 + b / 16 = b / 16 + a % 4 * 16 := by ring
  have e2 : (b / 16 + a % 4 * 16) % 16 = b / 16 % 16 := Nat.add_mul_mod_self_right _ _ _
  have e3 : b / 16 % 16 = b / 16 := Nat.mod_eq_of_lt (by omega)
  have e4 : b % 16 * 4 / 4 = b % 16 := Nat.mul_div_cancel _ (by norm_num)
  rw [e1, e2, e3, e4]
  omega

theorem b64dec3b (a b c : Nat) (hb : b < 256) (hc : c < 256) :
    (a % 4 * 16 + b / 16) % 16 * 16 + (b % 16 * 4 + c / 64) / 4 = b := by
  have e1 : a % 4 * 16 + b / 16 = b / 16 + a % 4 * 16 := by ring
  have e2 : (b / 16 + a % 4 * 16) % 16 = b / 16 % 16 := Nat.add_mul_mod_self_right _ _ _
  have e3 : b / 16 % 16 = b / 16 := Nat.mod_eq_of_lt (by omega)
  have e4 : b % 16 * 4 + c / 64 = c / 64 + b % 16 * 4 := by ring
  have e5 : (c / 64 + b % 16 * 4) / 4 = c / 64 / 4 + b % 16 :=
    Nat.add_mul_div_right _ _ (by norm_num)
  have e6 : c / 64 / 4 = 0 := Nat.div_eq_of_lt (by omega)
  rw [e1, e2, e3, e4, e5, e6]
  omega

theorem b64dec3c (b c : Nat) (hc : c < 256) :
    (b % 16 * 4 + c / 64) % 4 * 64 + c % 64 = c := by
  have e1 : b % 16 * 4 + c / 64 = c / 64 + b % 16 * 4 := by ring
  have e2 : (c / 64 + b % 16 * 4) % 4 = c / 64 % 4 := Nat.add_mul_mod_self_right _ _ _
  have e3 : c / 64 % 4 = c / 64 := Nat.mod_eq_of_lt (by omega)
  rw [e1, e2, e3]
  omega

theorem b64_roundtrip : ∀ (bs : List Nat), (∀ b ∈ bs, b < 256) →
    b64decodeL (b64encodeL bs) = bs
  | [], _ => rfl
  | [a], h => by
    have ha : a < 256 := h a (by simp)
    have h1 : a / 4 < 64 := by omega
    have h2 : a % 4 * 16 < 64 := by omega
    simp only [b64encodeL, b64decodeL]
    rw [if_pos trivial]
    rw [b64val_b64chr _ h1, b64val_b64chr _ h2]
    congr 1
    exact b64dec1 a
  | [a, b], h => by
    have ha : a < 256 := h a (by simp)
    have hb : b < 256 := h b (by simp)
    have h1 : a / 4 < 64 := by omega
    have h2 : a % 4 * 16 + b / 16 < 64 := by omega
    have h3 : b % 16 * 4 < 64 := by omega
    simp only [b64encodeL, b64decodeL]
    rw [if_neg (b64chr_ne_eq _ h3), if_pos trivial]
    rw [b64val_b64chr _ h1, b64val_b64chr _ h2, b64val_b64chr _ h3]
    congr 1
    · exact b64dec2a a b hb
    · congr 1
      exact b64dec2b a b hb
  | [a, b, c], h => by
    have ha : a < 256 := h a (by simp)
    have hb : b < 256 := h b (by simp)
    have hc : c < 256 := h c (by simp)
    have h1 : a / 4 < 64 := by omega
    have h2 : a % 4 * 16 + b / 16 < 64 := by omega
    have h3 : b % 16 * 4 + c / 64 < 64 := by omega
    have h4 : c % 64 < 64 := by omega
    simp only [b64encodeL, b64decodeL]
    rw [if_neg (b64chr_ne_eq _ h3), if_neg (b64chr_ne_eq _ h4)]
    rw [b64val_b64chr _ h1, b64val_b64chr _ h2, b64val_b64chr _ h3, b64val_b64chr _ h4]
    congr 1
    · exact b64dec2a a b hb
    · congr 1
      · exact b64dec3b a b c hb hc
      · congr 1
        exact b64dec3c b c hc
  | a :: b :: c :: d :: rest, h => by
    have ha : a < 256 := h a (by simp)
    have hb : b < 256 := h b (by simp)
    have hc : c < 256 := h c (by simp)
    have h1 : a / 4 < 64 := by omega
    have h2 : a % 4 * 16 + b / 16 < 64 := by omega
    have h3 : b % 16 * 4 + c / 64 < 64 := by omega
    have h4 : c % 64 < 64 := by omega
    have ih := b64_roundtrip (d :: rest) (fun x hx => h x (by simp at hx ⊢; tauto))
    simp only [b64encodeL, b64decodeL]
    rw [if_neg (b64chr_ne_eq _ h3), if_neg (b64chr_ne_eq _ h4)]
    rw [b64val_b64chr _ h1, b64val_b64chr _ h2, b64val_b64chr _ h3, b64val_b64chr _ h4]
    rw [ih]
    congr 1
    · exact b64dec2a a b hb
    · congr 1
      · exact b64dec3b a b c hb hc
      · congr 1
        exact b64dec3c b c hc

/-- UTF-8 encoding of one code point, model of Python `str.encode('utf-8')`
per character. -/
def utf8Char (c : Char) : List Nat :=
  let n := c.toNat
  if n < 128 then [n]
  else if n < 2048 then [192 + n / 64, 128 + n % 64]
  else if n < 65536 then [224 + n / 4096, 128 + n / 64 % 64, 128 + n % 64]
  else [240 + n / 262144, 128 + n / 4096 % 64, 128 + n / 64 % 64, 128 + n % 64]

/-- UTF-8 bytes of a string. -/
def utf8Bytes (s : String) : List Nat := (s.data.map utf8Char).flatten

theorem char_toNat_lt (c : Char) : c.toNat < 1114112 := by
  rcases c.valid with h | ⟨_, h⟩ <;> simp [Char.toNat] <;> omega

theorem utf8Char_lt (c : Char) : ∀ b ∈ utf8Char c, b < 256 := by
  have := char_toNat_lt c
  intro b hb
  simp only [utf8Char] at hb
  split at hb
  · simp at hb; omega
  · split at hb
    · simp at hb
      have h64 : c.toNat / 64 < 32 := by omega
      rcases hb with rfl | rfl <;> omega
    · split at hb
      · simp at hb
        have : c.toNat / 4096 < 16 := by omega
        have : c.toNat / 64 % 64 < 64 := Nat.mod_lt _ (by norm_num)
        have : c.toNat % 64 < 64 := Nat.mod_lt _ (by norm_num)
        rcases hb with rfl | rfl | rfl <;> omega
      · simp at hb
        have : c.toNat / 262144 < 5 := by omega
        have : c.toNat / 4096 % 64 < 64 := Nat.mod_lt _ (by norm_num)
        have : c.toNat / 64 % 64 < 64 := Nat.mod_lt _ (by norm_num)
        have : c.toNat % 64 < 64 := Nat.mod_lt _ (by norm_num)
        rcases hb with rfl | rfl | rfl | rfl <;> omega

theorem utf8Bytes_lt (s : String) : ∀ b ∈ utf8Bytes s, b < 256 := by
  intro b hb
  simp only [utf8Bytes, List.mem_flatten, List.mem_map] at hb
  obtain ⟨l, ⟨c, _, rfl⟩, hbl⟩ := hb
  exact utf8Char_lt c b hbl

theorem b64_utf8_roundtrip (s : String) :
    b64decodeL (b64encodeL (utf8Bytes s)) = utf8Bytes s :=
  b64_roundtrip _ (utf8Bytes_lt s)

/-- Serialization of an attribute list. -/
def serializeAttrs : List (String × String) → String
  | [] => ""
  | (n, v) :: rest => " " ++ n ++ "=\x22" ++ v ++ "\x22" ++ serializeAttrs rest

mutual
/-- Model of Python `str(element)` on the BeautifulSoup tree: serialize tag,
attributes in document order, and children. -/
def serialize : Html → String
  | .text s => s
  | .elem t a cs => "<" ++ t ++ serializeAttrs a ++ ">" ++ serializeList cs ++ "</" ++ t ++ ">"
/-- Serialization of a node list. -/
def serializeList : List Html → String
  | [] => ""
  | c :: cs => serialize c ++ serializeList cs
end

/-- Outcome data of PIL's `Image.open` on fetched bytes, used as an oracle by
the visual-feature analysis: pixel size, whether the mode is RGB/RGBA, and
`getcolors(maxcolors=256)` (`none` when PIL raised or returned `None`). -/
structure PilImage where
  width : Nat
  height : Nat
  rgbMode : Bool
  colorCount : Option Nat

/-- Network oracle: `head url` and `get url` return `none` when the request
raises (DNS error, timeout, TLS error), otherwise the status code, the
`content-type` header and (for GET) the body bytes; `pil url` is the result
of decoding the GET body as an image. A fixed oracle makes every resolver
function a pure function of its inputs. -/
structure Net where
  head : String → Option (Nat × String)
  get : String → Option (Nat × String × List Nat)
  pil : String → Option PilImage

namespace Disrupt

/-- Accepted logo file extensions (`scraper_disruptafrica.py`, also used
verbatim in `african_opportunities_scraper.py`). -/
def validExtensions : List String := [".png", ".jpg", ".jpeg", ".gif", ".svg", ".webp", ".ico"]

/-- Whether the lowercased URL contains one of the accepted extensions. -/
def hasValidExt (url : String) : Bool :=
  validExtensions.any (fun e => strContains (strLower url) e)

/-- Break a character list at the first occurrence of `sub`. -/
def breakOnSub (sub : List Char) : List Char → Option (List Char × List Char)
  | [] => if sub.isEmpty then some ([], []) else none
  | l@(c :: rest) =>
    if sub.isPrefixOf l then some ([], l.drop sub.length)
    else (breakOnSub sub rest).map (fun pr => (c :: pr.1, pr.2))

/-- Scheme and netloc of a URL, model of `urllib.parse.urlparse` restricted
to the absolute http(s) base URLs the engine feeds it. -/
def urlparseSchemeNetloc (u : String) : String × String :=
  match breakOnSub "://".data u.data with
  | none => ("", "")
  | some (sch, rest) =>
    (String.mk sch, String.mk (rest.takeWhile (fun c => c ≠ '/' ∧ c ≠ '?' ∧ c ≠ '#')))

/-- Path part of a URL (everything after the netloc). -/
def urlPath (u : String) : String :=
  match breakOnSub "://".data u.data with
  | none => u
  | some (_, rest) => String.mk (rest.dropWhile (fun c => c ≠ '/' ∧ c ≠ '?' ∧ c ≠ '#'))

/-- Directory of a path: up to and including the last slash (the slash root
when the path has none). -/
def dirOf (path : String) : String :=
  let l := path.data
  let cut := (l.reverse.dropWhile (fun c => c ≠ '/')).reverse
  if cut.isEmpty then "/" else String.mk cut

/-- Model of `urllib.parse.urljoin` for the http(s) URLs the engine uses:
absolute references pass through, scheme-relative take the base scheme,
root-relative take scheme and netloc, and other relative paths are joined
onto the directory of the base path (dot-segment and query normalization
is not modelled; the engine never feeds such references). -/
def urljoin (base ref : String) : String :=
  if ref = "" then base
  else if strStartsWith ref "http://" || strStartsWith ref "https://" then ref
  else
    let (sch, nl) := urlparseSchemeNetloc base
    if strStartsWith ref "//" then sch ++ ":" ++ ref
    else if strStartsWith ref "/" then sch ++ "://" ++ nl ++ ref
    else sch ++ "://" ++ nl ++ dirOf (urlPath base) ++ ref

/-- Model of `_normalize_logo_url` (`scraper_disruptafrica.py`, identical in
`scraper_dy_vc4a.py`): falsy src gives `None`; fully-qualified http(s) srcs
pass through; srcs starting with a slash (including scheme-relative `//...`
srcs) get the scheme and netloc of the base prepended; the rest go through
`urljoin`. -/
def normalizeLogoUrl (logoSrc base : String) : Option String :=
  if logoSrc = "" then none
  else if strStartsWith logoSrc "http://" || strStartsWith logoSrc "https://" then some logoSrc
  else if strStartsWith logoSrc "/" then
    let pr := urlparseSchemeNetloc base
    some (pr.1 ++ "://" ++ pr.2 ++ logoSrc)
  else some (urljoin base logoSrc)

/-- Content-type test of `validate_logo_image_fast`: the lowercased header
contains `image` or `icon`. -/
def ctHasImageLower (ct : String) : Bool :=
  strContains (strLower ct) "image" || strContains (strLower ct) "icon"

/-- Content-type test of `validate_logo_image` (no lowercasing there). -/
def ctHasImage (ct : String) : Bool :=
  strContains ct "image" || strContains ct "icon"

/-- Model of Python `s.endswith(p)`. -/
def strEndsWith (s p : String) : Bool := p.data.isSuffixOf s.data

/-- ICO binary signature check on the first four body bytes. -/
def icoSig (bytes : List Nat) : Bool :=
  match bytes.take 4 with
  | [b0, b1, b2, b3] => b0 = 0 && b1 = 0 && ((b2 = 1 && b3 = 0) || (b2 = 2 && b3 = 0))
  | _ => false

/-- Model of `validate_logo_image_fast` (`scraper_disruptafrica.py` lines
1242-1276, identical in `african_opportunities_scraper.py`): reject URLs
shorter than 10 characters, accept `data:image/` URIs, reject URLs without
an accepted extension, then require HEAD (or, only when HEAD raises, GET)
to answer 200 with an image/icon content type; every failure yields
`false`, never an exception. -/
def validateLogoImageFast (net : Net) (url : String) : Bool :=
  if strLen url < 10 then false
  else if strStartsWith url "data:image/" then true
  else if ¬ hasValidExt url then false
  else match net.head url with
    | some (st, ct) => if st = 200 then ctHasImageLower ct else false
    | none =>
      match net.get url with
      | some (st, ct, _) => if st = 200 then ctHasImageLower ct else false
      | none => false

/-- Model of `validate_logo_image` (`scraper_disruptafrica.py` lines
1278-1319): like the fast variant but with the ICO binary-signature
fallback on the GET body for `.ico` URLs. -/
def validateLogoImage (net : Net) (url : String) : Bool :=
  if strLen url < 10 then false
  else if strStartsWith url "data:image/" then true
  else if ¬ hasValidExt url then false
  else match net.head url with
    | some (st, ct) => if st = 200 then ctHasImage ct else false
    | none =>
      match net.get url with
      | some (st, ct, bytes) =>
        if st = 200 then
          if ctHasImage ct then true
          else if strEndsWith (strLower url) ".ico" && icoSig bytes then true
          else false
        else false
      | none => false

/-- Keywords signalling a logo in alt text or class lists. -/
def logoKeywords : List String := ["logo", "brand", "company", "organization", "site"]

/-- Dimension bonus of `_is_valid_logo_candidate`: +0.1 (10 hundredths) when
both declared dimensions parse as integers in 50-500 x 20-200. -/
def dimsBonus (img : Html) : Int :=
  match img.attr? "width", img.attr? "height" with
  | some w, some h =>
    if w ≠ "" ∧ h ≠ "" then
      match pyInt? w, pyInt? h with
      | some wi, some hi => if 50 ≤ wi ∧ wi ≤ 500 ∧ 20 ≤ hi ∧ hi ≤ 200 then 10 else 0
      | _, _ => 0
    else 0
  | _, _ => 0

/-- Keyword bonus of `_is_valid_logo_candidate`: +0.3 when alt text or the
joined class list contains a logo keyword. -/
def kwBonus (img : Html) : Int :=
  let altText := strLower (img.attrD "alt" "")
  let classList := strLower img.classJoined
  if logoKeywords.any (fun k => strContains altText k || strContains classList k) then 30 else 0

/-- The confidence score `_is_valid_logo_candidate` accumulates, in integer
hundredths: the caller's boost, +0.2 for a data URI (else +0.1 for `.svg`),
+0.3 for a logo keyword on the element, +0.1 for plausible dimensions. -/
def candidateScore (url : String) (img? : Option Html) (boost : Int) : Int :=
  boost
  + (if strStartsWith url "data:image/" then 20
     else if strContainsCI url ".svg" then 10 else 0)
  + (match img? with
     | some img => kwBonus img + dimsBonus img
     | none => 0)

/-- Model of `_is_valid_logo_candidate` (`scraper_disruptafrica.py` lines
1190-1237): falsy URL is invalid; non-data URLs need an accepted extension
and must pass `validate_logo_image_fast`; the final verdict is
`confidence_score >= 0.1`. -/
def isValidLogoCandidateStr (net : Net) (url : String) (img? : Option Html) (boost : Int) : Bool :=
  if url = "" then false
  else if ¬ strStartsWith url "data:image/" ∧ ¬ hasValidExt url then false
  else if ¬ strStartsWith url "data:" ∧ ¬ validateLogoImageFast net url then false
  else candidateScore url img? boost ≥ 10

/-- The same, on the optional URL `_normalize_logo_url` hands over
(`if not logo_url: return False`). -/
def isValidLogoCandidate (net : Net) (url? : Option String) (img? : Option Html) (boost : Int) : Bool :=
  match url? with
  | none => false
  | some url => isValidLogoCandidateStr net url img? boost

/-- URL taken from one `use` element by `_extract_svg_as_logo`: a truthy
`http...` href is returned as-is (no extension or reachability check), a
root-relative one is normalized, anything else falls through. -/
def useUrlOf (use : Html) (base : String) : Option String :=
  match use.attr? "href" with
  | some href =>
    if href = "" then none
    else if strStartsWith href "http" then some href
    else if strStartsWith href "/" then normalizeLogoUrl href base
    else none
  | none => none

/-- The `<use href>` branch of `_extract_svg_as_logo`: applied to the first
`use` descendant of the svg; `none` falls through to the inline
serialization branch. -/
def extractSvgUseBranch (svg : Html) (base : String) : Option String :=
  (svg.findFirst (fun e => e.tag == "use")).bind (fun use => useUrlOf use base)

/-- Condition on serialized svg markup for the inline branch: longer than
100 characters and containing a drawing primitive name. -/
def svgMarkupOk (s : String) : Bool :=
  strLen s > 100 && (strContains s "path" || strContains s "circle" || strContains s "rect")

/-- Model of `_extract_svg_as_logo` (`scraper_disruptafrica.py` lines
1151-1174): the `use` branch first, else base64-encode the serialized
markup as a `data:image/svg+xml;base64,...` URI when `svgMarkupOk`. -/
def extractSvgAsLogo (svg : Html) (base : String) : Option String :=
  match extractSvgUseBranch svg base with
  | some u => some u
  | none =>
    let content := serialize svg
    if svgMarkupOk content then
      some ("data:image/svg+xml;base64," ++ String.mk (b64encodeL (utf8Bytes content)))
    else none

/-- Transient logo candidate recorded by `_add_logo_candidate`. -/
structure Cand where
  url : String
  confidence : Int
  strategy : String
  alt : String
  cls : String
  src : String
deriving DecidableEq

/-- Model of `_add_logo_candidate`: append when the URL is truthy and fewer
than 20 candidates are stored. -/
def addLogoCandidate (cands : List Cand) (url? : Option String) (img? : Option Html)
    (conf : Int) (strat : String) : List Cand :=
  match url? with
  | some url =>
    if url ≠ "" ∧ cands.length < 20 then
      cands ++ [{ url := url, confidence := conf, strategy := strat,
                  alt := (match img? with | some i => i.attrD "alt" "" | none => ""),
                  cls := (match img? with | some i => i.classJoined | none => ""),
                  src := (match img? with | some i => i.attrD "src" "" | none => "") }]
    else cands
  | none => cands

end Disrupt

namespace Vc4a

/-- Accepted extensions in `scraper_dy_vc4a.py` (no `.ico` there). -/
def validExtensions : List String := [".png", ".jpg", ".jpeg", ".gif", ".svg", ".webp"]

/-- Whether the lowercased URL contains one of the vc4a extensions. -/
def hasValidExt (url : String) : Bool :=
  validExtensions.any (fun e => strContains (strLower url) e)

/-- Model of `_is_valid_logo_candidate` (`scraper_dy_vc4a.py` lines
495-518): data URIs accepted, an accepted extension required, then a HEAD
request is attempted; only a 200 answer decides by content type -- when the
request raises or answers non-200 the function falls through to
`return True`. The `img_element` parameter is unused there, as here. -/
def isValidLogoCandidate (net : Net) (url? : Option String) (_imgElement : Option Html) : Bool :=
  match url? with
  | none => false
  | some url =>
    if url = "" then false
    else if strStartsWith url "data:image/" then true
    else if ¬ hasValidExt url then false
    else match net.head url with
      | some (st, ct) => if st = 200 then strContains ct "image" else true
      | none => true

end Vc4a

namespace Disrupt

/-- Case-insensitive substring test on a raw attribute value, the semantics
of a CSS `[attr*="sub" i]` selector (absent attribute never matches,
matching the selector engine). -/
def attrContainsCI (e : Html) (name sub : String) : Bool :=
  match e.attr? name with
  | some v => strContainsCI v sub
  | none => false

/-- Case-sensitive variant, for the dynamic stage's selectors written
without the `i` flag. -/
def attrContainsCS (e : Html) (name sub : String) : Bool :=
  match e.attr? name with
  | some v => strContains v sub
  | none => false

/-- BeautifulSoup `class_=re.compile(sub, re.I)` semantics: some individual
class token contains `sub` case-insensitively. -/
def classTokenContainsCI (e : Html) (sub : String) : Bool :=
  e.classTokens.any (fun t => strContainsCI t sub)

/-- BeautifulSoup `id=re.compile(sub, re.I)` semantics. -/
def idContainsCI (e : Html) (sub : String) : Bool :=
  match e.attr? "id" with
  | some v => strContainsCI v sub
  | none => false

/-- CSS class selector `.name`: token membership (case-sensitive). -/
def hasClassToken (e : Html) (name : String) : Bool := e.classTokens.contains name

/-- The 24 header selectors of `_find_header_elements`
(`scraper_disruptafrica.py` lines 561-569), in source order, as element
predicates. -/
def headerSelectorPreds : List (Html → Bool) :=
  [ fun e => e.tag == "header",
    fun e => attrContainsCI e "class" "header",
    fun e => attrContainsCI e "id" "header",
    fun e => e.tag == "nav",
    fun e => attrContainsCI e "class" "navbar",
    fun e => attrContainsCI e "class" "nav",
    fun e => attrContainsCI e "class" "top",
    fun e => attrContainsCI e "class" "brand",
    fun e => e.attr? "role" == some "banner",
    fun e => hasClassToken e "site-header",
    fun e => hasClassToken e "main-header",
    fun e => hasClassToken e "page-header",
    fun e => e.attr? "id" == some "masthead",
    fun e => hasClassToken e "masthead",
    fun e => hasClassToken e "header-wrapper",
    fun e => hasClassToken e "site-branding",
    fun e => hasClassToken e "logo-container",
    fun e => hasClassToken e "brand-container",
    fun e => e.tag == "a" && attrContainsCI e "class" "logo",
    fun e => e.tag == "a" && attrContainsCI e "id" "logo",
    fun e => e.tag == "a" && attrContainsCI e "class" "brand",
    fun e => e.tag == "a" && e.attr? "href" == some "/",
    fun e => e.tag == "a" && e.attr? "href" == some "./",
    fun e => e.tag == "a" && e.attr? "href" == some "#" ]

/-- Deduplication keeping first occurrences, on tree paths (the model of
CPython `id(elem)` identity). -/
def dedupByPath : List (List Nat × Html) → List (List Nat) → List (List Nat × Html)
  | [], _ => []
  | pe :: rest, seen =>
    if seen.contains pe.1 then dedupByPath rest seen
    else pe :: dedupByPath rest (pe.1 :: seen)

/-- Keyword filter on the first body divs in `_find_header_elements`. -/
def bodyDivKeyword (e : Html) : Bool :=
  let dc := strLower e.classJoined
  let di := strLower (e.attrD "id" "")
  ["header", "top", "nav", "logo", "brand", "site"].any
    (fun k => strContains dc k || strContains di k)

/-- Model of `_find_header_elements`: all selector matches in selector then
document order, plus the first five `div` descendants of `body` whose
class/id carries a branding keyword, deduplicated by node identity. -/
def findHeaderElements (doc : Html) : List Html :=
  let all := pnodesOne [] doc
  let sel := (headerSelectorPreds.map (fun pred => all.filter (fun pe => pred pe.2))).flatten
  let bodyPart :=
    match all.find? (fun pe => pe.2.tag == "body") with
    | some bp =>
      (((pnodesMany bp.1 0 bp.2.childList).filter (fun pe => pe.2.tag == "div")).take 5).filter
        (fun pe => bodyDivKeyword pe.2)
    | none => []
  (dedupByPath (sel ++ bodyPart) []).map (·.2)

/-- Candidate-threading loop: run `f` over the list, returning on the first
`some` result while accumulating the candidate list, the shape of every
static-strategy loop around `self.logo_candidates`. -/
def loopState {α : Type} (f : α → List Cand → Option String × List Cand) :
    List α → List Cand → Option String × List Cand
  | [], cands => (none, cands)
  | x :: xs, cands =>
    match f x cands with
    | (some u, cs) => (some u, cs)
    | (none, cs) => loopState f xs cs

/-- The return pattern shared by the collecting strategies: when the gate
passes, return the URL; otherwise record the candidate (with confidence
`conf`, which strategy 7 sets differently from its boost) and continue. -/
def gateReturn (net : Net) (u : Option String) (img? : Option Html) (boost conf : Int)
    (strat : String) (cands : List Cand) : Option String × List Cand :=
  if isValidLogoCandidate net u img? boost then (u, cands)
  else (none, addLogoCandidate cands u img? conf strat)

/-- Per-image body of strategy 1 (`_find_logo_by_alt_attribute`): keyword in
alt text, truthy src, then the validity gate with boost 0.4, collecting the
candidate when the gate fails. -/
def s1Img (net : Net) (base : String) (img : Html) (cands : List Cand) :
    Option String × List Cand :=
  let altText := strLower (img.attrD "alt" "")
  if logoKeywords.any (fun k => strContains altText k) then
    match img.attr? "src" with
    | some src =>
      if src ≠ "" then
        gateReturn net (normalizeLogoUrl src base) (some img) 40 40
          "Strategie 1 - Alt attribute" cands
      else (none, cands)
    | none => (none, cands)
  else (none, cands)

/-- Strategy 1: images with an alt attribute inside header regions. -/
def findLogoByAltAttribute (net : Net) (base : String) (headers : List Html)
    (cands : List Cand) : Option String × List Cand :=
  loopState (fun h c =>
    loopState (s1Img net base) (h.findAll (fun e => e.tag == "img" && e.hasAttr "alt")) c)
    headers cands

/-- Strategy 2 (`_find_logo_svg_elements`): svg by logo class, svg by logo
id, then any svg inside a div/a/span logo container, each through
`_extract_svg_as_logo`. -/
def findLogoSvgElements (headers : List Html) (base : String) : Option String :=
  firstSome (fun h =>
    match firstSome (fun svg => extractSvgAsLogo svg base)
        (h.findAll (fun e => e.tag == "svg" && classTokenContainsCI e "logo")) with
    | some u => some u
    | none =>
      match firstSome (fun svg => extractSvgAsLogo svg base)
          (h.findAll (fun e => e.tag == "svg" && idContainsCI e "logo")) with
      | some u => some u
      | none =>
        firstSome (fun c =>
          (c.findFirst (fun e => e.tag == "svg")).bind (fun svg => extractSvgAsLogo svg base))
          (h.findAll (fun e =>
            (e.tag == "div" || e.tag == "a" || e.tag == "span") && classTokenContainsCI e "logo")))
    headers

/-- The container selectors of strategy 3, in source order. -/
def s3Selectors : List (Html → Bool) :=
  [ fun e => attrContainsCI e "class" "logo",
    fun e => attrContainsCI e "id" "logo",
    fun e => attrContainsCI e "class" "brand",
    fun e => attrContainsCI e "id" "brand",
    fun e => hasClassToken e "site-title",
    fun e => hasClassToken e "site-logo",
    fun e => hasClassToken e "brand-logo",
    fun e => hasClassToken e "company-logo" ]

/-- First half of the per-container body of strategy 3: an img descendant
of the container, through the gate with boost 0.3. -/
def s3Block1 (net : Net) (base : String) (c : Html) (cands : List Cand) :
    Option String × List Cand :=
  match c.findFirst (fun e => e.tag == "img") with
  | some img =>
    match img.attr? "src" with
    | some src =>
      if src ≠ "" then
        gateReturn net (normalizeLogoUrl src base) (some img) 30 30
          "Strategie 3 - Container" cands
      else (none, cands)
    | none => (none, cands)
  | none => (none, cands)

/-- Second half of the per-container body of strategy 3: the container
itself when it is an img. -/
def s3Block2 (net : Net) (base : String) (c : Html) (cands : List Cand) :
    Option String × List Cand :=
  if c.tag == "img" then
    match c.attr? "src" with
    | some src =>
      if src ≠ "" then
        gateReturn net (normalizeLogoUrl src base) (some c) 30 30
          "Strategie 3 - Container image" cands
      else (none, cands)
    | none => (none, cands)
  else (none, cands)

/-- Per-container body of strategy 3: both blocks run in sequence, the
second on the candidate list left by the first. -/
def s3Container (net : Net) (base : String) (c : Html) (cands : List Cand) :
    Option String × List Cand :=
  match s3Block1 net base c cands with
  | (some u, cs) => (some u, cs)
  | (none, cs) => s3Block2 net base c cs

/-- Strategy 3 (`_find_logo_in_containers`). -/
def findLogoInContainers (net : Net) (base : String) (headers : List Html)
    (cands : List Cand) : Option String × List Cand :=
  loopState (fun h c1 =>
    loopState (fun sel c2 =>
      loopState (s3Container net base) (h.findAll sel) c2) s3Selectors c1)
    headers cands

/-- Per-image body of strategy 4 (`_find_logo_by_src_content`): `logo` in
the lowercased src without icon/avatar/profile, gate boost 0.2. -/
def s4Img (net : Net) (base : String) (img : Html) (cands : List Cand) :
    Option String × List Cand :=
  let srcLower := strLower (img.attrD "src" "")
  if strContains srcLower "logo" &&
      ¬ (["icon", "avatar", "profile"].any (fun x => strContains srcLower x)) then
    gateReturn net (normalizeLogoUrl (img.attrD "src" "") base) (some img) 20 20
      "Strategie 4 - Src logo" cands
  else (none, cands)

/-- Strategy 4. -/
def findLogoBySrcContent (net : Net) (base : String) (headers : List Html)
    (cands : List Cand) : Option String × List Cand :=
  loopState (fun h c =>
    loopState (s4Img net base) (h.findAll (fun e => e.tag == "img" && e.hasAttr "src")) c)
    headers cands

/-- First truthy of a chain of `or`-ed Python expressions over optional
strings. -/
def firstTruthy : List (Option String) → Option String
  | [] => none
  | some s :: rest => if s ≠ "" then some s else firstTruthy rest
  | none :: rest => firstTruthy rest

/-- Per-attribute body of strategy 5 (`_find_logo_by_data_attributes`): a
string attribute value containing `logo` under one of the four accepted
names; the src falls back through `src or data-src or data-original`. The
`class` attribute is list-valued in BeautifulSoup and so fails the
`isinstance(attr_value, str)` test, modelled by excluding it by name. -/
def s5Attr (net : Net) (base : String) (img : Html) (attr : String × String)
    (cands : List Cand) : Option String × List Cand :=
  if attr.1 ≠ "class" ∧ strContains (strLower attr.2) "logo" then
    if attr.1 = "data-src" ∨ attr.1 = "data-original" ∨ attr.1 = "title" ∨
        attr.1 = "aria-label" then
      match firstTruthy [img.attr? "src", img.attr? "data-src", img.attr? "data-original"] with
      | some src =>
        gateReturn net (normalizeLogoUrl src base) (some img) 20 20
          "Strategie 5 - data attribute" cands
      | none => (none, cands)
    else (none, cands)
  else (none, cands)

/-- Strategy 5. -/
def findLogoByDataAttributes (net : Net) (base : String) (headers : List Html)
    (cands : List Cand) : Option String × List Cand :=
  loopState (fun h c =>
    loopState (fun img c' => loopState (s5Attr net base img) img.attrList c')
      (h.findAll (fun e => e.tag == "img")) c)
    headers cands

/-- Home-page indicators of strategy 6. -/
def contextIndicators : List String :=
  ["home", "accueil", "homepage", "site", "company", "organization"]

/-- Image part of the per-link body of strategy 6: an img inside the link
through the gate with boost 0.2. -/
def s6ImgPart (net : Net) (base : String) (link : Html) (cands : List Cand) :
    Option String × List Cand :=
  match link.findFirst (fun e => e.tag == "img") with
  | some img =>
    match img.attr? "src" with
    | some src =>
      if src ≠ "" then
        gateReturn net (normalizeLogoUrl src base) (some img) 20 20
          "Strategie 6 - Contextuel" cands
      else (none, cands)
    | none => (none, cands)
  | none => (none, cands)

/-- Svg part of the per-link body of strategy 6: the first svg inside the
link through `_extract_svg_as_logo`. -/
def s6SvgPart (base : String) (link : Html) (cands : List Cand) :
    Option String × List Cand :=
  match link.findFirst (fun e => e.tag == "svg") with
  | some svg => (extractSvgAsLogo svg base, cands)
  | none => (none, cands)

/-- Per-link body of strategy 6 (`_find_logo_by_context_analysis`): home
link detection, then an img inside the link (gate boost 0.2, collected on
failure), then an svg inside the link through `_extract_svg_as_logo`. -/
def s6Link (net : Net) (base : String) (link : Html) (cands : List Cand) :
    Option String × List Cand :=
  let href := strLower (link.attrD "href" "")
  let linkText := strLower link.textContent
  let linkClass := strLower link.classJoined
  let linkId := strLower (link.attrD "id" "")
  let isHomeLink :=
    (href = "/" ∨ href = "#" ∨ href = "" ∨ href = "./") ∨
    (["home", "index"].any (fun i => strContains href i)) ∨
    (contextIndicators.any (fun i => strContains linkText i)) ∨
    (["logo", "brand"].any (fun w => strContains linkClass w || strContains linkId w))
  if isHomeLink then
    match s6ImgPart net base link cands with
    | (some u, cs) => (some u, cs)
    | (none, cs) => s6SvgPart base link cs
  else (none, cands)

/-- Strategy 6. -/
def findLogoByContextAnalysis (net : Net) (base : String) (headers : List Html)
    (cands : List Cand) : Option String × List Cand :=
  loopState (fun h c =>
    loopState (s6Link net base) (h.findAll (fun e => e.tag == "a" && e.hasAttr "href")) c)
    headers cands

/-- Exclusion patterns of strategy 7, in source order. -/
def s7ExcludePatterns : List String :=
  [ "icon", "arrow", "menu", "search", "close", "burger", "hamburger",
    "facebook", "twitter", "linkedin", "instagram", "youtube", "social",
    "banner", "ad", "advertisement", "avatar", "profile", "user" ]

/-- Per-image body of strategy 7 (`_find_logo_intelligent_fallback`):
exclusion patterns on the src, a dimension plausibility filter (skipped
when `int()` raises), then the gate with boost 0; failed candidates are
collected with confidence 0.1. The Python float comparisons `w/h > 10` and
`h/w > 3` are exact integer comparisons at the point they are reached
(`s7DimsOk` is `true` when dimensions are absent or `int()` raises). -/
def s7DimsOk (img : Html) : Bool :=
  match img.attr? "width", img.attr? "height" with
  | some w, some h =>
    if w ≠ "" ∧ h ≠ "" then
      match pyInt? w, pyInt? h with
      | some wi, some hi => decide (¬(wi < 30 ∨ hi < 20 ∨ wi > 10 * hi ∨ hi > 3 * wi))
      | _, _ => true
    else true
  | _, _ => true

/-- Per-image body of strategy 7, continued. -/
def s7Img (net : Net) (base : String) (img : Html) (cands : List Cand) :
    Option String × List Cand :=
  let src := strLower (img.attrD "src" "")
  if s7ExcludePatterns.any (fun p => strContains src p) then (none, cands)
  else
    if s7DimsOk img then
      gateReturn net (normalizeLogoUrl (img.attrD "src" "") base) (some img) 0 10
        "Strategie 7 - Fallback" cands
    else (none, cands)

/-- Strategy 7: at most the first three imgs per header region. -/
def findLogoIntelligentFallback (net : Net) (base : String) (headers : List Html)
    (cands : List Cand) : Option String × List Cand :=
  loopState (fun h c =>
    loopState (s7Img net base) ((h.findAll (fun e => e.tag == "img" && e.hasAttr "src")).take 3) c)
    headers cands

/-- The six favicon rel values of strategy 8, in source order. -/
def faviconRels : List String :=
  [ "icon", "shortcut icon", "apple-touch-icon", "apple-touch-icon-precomposed",
    "mask-icon", "fluid-icon" ]

/-- CSS `link[rel="r"]` on the multi-valued rel attribute: the selector
engine compares against the whitespace-normalized joined value. -/
def relMatches (e : Html) (r : String) : Bool :=
  e.tag == "link" && joinSp (splitWs (e.attrD "rel" "")) == r

/-- Size score of a favicon candidate from its `sizes` attribute: 0.3 from
64x64 up, 0.2 from 32x32 up, else 0.1 (also when parsing raises). -/
def faviconSizeScore (sizes : String) : Int :=
  if sizes ≠ "" ∧ strContains sizes "x" then
    match splitOnChar 'x' sizes.data with
    | [] => 10
    | w :: rest =>
      match pyInt? (String.mk w) with
      | none => 10
      | some wi =>
        match (match rest with | [] => some wi | h :: _ => pyInt? (String.mk h)) with
        | none => 10
        | some hi =>
          if wi ≥ 64 ∧ hi ≥ 64 then 30
          else if wi ≥ 32 ∧ hi ≥ 32 then 20
          else 10
  else 10

/-- Strategy 8 (`_find_logo_favicon_strategy`): first the direct
`/favicon.ico` probe through `validate_logo_image`; else collect the
declared favicon links per rel selector, score by declared size, stable-sort
descending and return the first candidate passing validation. -/
def findLogoFaviconStrategy (net : Net) (doc : Html) (base : String) : Option String :=
  let defaultFavicon := urljoin base "/favicon.ico"
  if validateLogoImage net defaultFavicon then some defaultFavicon
  else
    let all := nodesOne doc
    let cs := (faviconRels.map (fun r =>
      (all.filter (fun e => relMatches e r)).filterMap (fun fav =>
        match fav.attr? "href" with
        | some href =>
          if href ≠ "" then
            match normalizeLogoUrl href base with
            | some u => some (u, faviconSizeScore (fav.attrD "sizes" ""))
            | none => none
          else none
        | none => none))).flatten
    let sorted := List.insertionSort (fun a b : String × Int => b.2 ≤ a.2) cs
    firstSome (fun c => if validateLogoImage net c.1 then some c.1 else none) sorted

/-- Exclusion patterns of strategy 9, in source order. -/
def s9ExcludePatterns : List String :=
  [ "icon", "arrow", "menu", "search", "close", "burger", "hamburger",
    "facebook", "twitter", "linkedin", "instagram", "youtube", "social",
    "banner", "ad", "advertisement", "avatar", "profile", "user",
    "gallery", "photo", "pic", "image", "thumb", "preview",
    "button", "background", "bg", "pattern", "texture" ]

/-- Dimension plausibility of strategy 9 (`reasonable_dimensions`),
`true` when absent or unparsable. -/
def s9DimsOk (img : Html) : Bool :=
  match img.attr? "width", img.attr? "height" with
  | some w, some h =>
    if w ≠ "" ∧ h ≠ "" then
      match pyInt? w, pyInt? h with
      | some wi, some hi =>
        decide (¬(wi < 30 ∨ hi < 20 ∨ wi > 800 ∨ hi > 400 ∨ wi > 8 * hi ∨ hi > 3 * wi))
      | _, _ => true
    else true
  | _, _ => true

/-- Per-image body of strategy 9 (`_find_logo_global_images_strategy`):
document-wide exclusion on src and alt, logo-indicator boost 0.15/0.05,
dimension plausibility, then the gate, collecting failures. -/
def s9Img (net : Net) (base : String) (img : Html) (cands : List Cand) :
    Option String × List Cand :=
  let src := strLower (img.attrD "src" "")
  let alt := strLower (img.attrD "alt" "")
  if s9ExcludePatterns.any (fun p => strContains src p || strContains alt p) then (none, cands)
  else
    let hasLogoIndicator := logoKeywords.any (fun i => strContains src i || strContains alt i)
    if s9DimsOk img then
      let boost : Int := if hasLogoIndicator then 15 else 5
      gateReturn net (normalizeLogoUrl (img.attrD "src" "") base) (some img) boost boost
        "Strategie 9 - Global" cands
    else (none, cands)

/-- Strategy 9: at most the first ten imgs of the whole document. -/
def findLogoGlobalImagesStrategy (net : Net) (doc : Html) (base : String)
    (cands : List Cand) : Option String × List Cand :=
  loopState (s9Img net base)
    (((nodesOne doc).filter (fun e => e.tag == "img" && e.hasAttr "src")).take 10) cands

/-- Model of `_analyze_logo_url_features`, in integer hundredths, capped at
0.5: extension bonus, logo/brand keyword bonus, asset-folder bonus,
thumb/small and large/big penalties. -/
def analyzeLogoUrlFeatures (logoUrl : String) : Int :=
  if logoUrl = "" then 0
  else
    let url := strLower logoUrl
    let e1 : Int :=
      if [".svg", ".png"].any (fun e => strContains url e) then 20
      else if [".jpg", ".jpeg", ".webp"].any (fun e => strContains url e) then 10 else 0
    let e2 : Int := if strContains url "logo" then 30 else 0
    let e3 : Int := if ["brand", "company", "org"].any (fun w => strContains url w) then 20 else 0
    let e4 : Int :=
      if ["/assets/", "/images/", "/img/", "/static/"].any (fun f => strContains url f) then 10
      else 0
    let e5 : Int := if strContains url "thumb" || strContains url "small" then -10 else 0
    let e6 : Int := if strContains url "large" || strContains url "big" then -5 else 0
    min (e1 + e2 + e3 + e4 + e5 + e6) 50

/-- Model of `_analyze_logo_visual_features`, in integer hundredths, capped
at 0.3: 0 when the GET or PIL decoding fails; else aspect-ratio bonus,
pixel-size bonus/penalty, and a color-count bonus/penalty in RGB modes. -/
def analyzeLogoVisualFeatures (net : Net) (logoUrl : String) : Int :=
  match net.get logoUrl with
  | none => 0
  | some (st, _, _) =>
    if st ≠ 200 then 0
    else match net.pil logoUrl with
      | none => 0
      | some img =>
        let v1 : Int :=
          if img.height > 0 ∧ 2 * img.width ≥ img.height ∧ img.width ≤ 4 * img.height then 20
          else 0
        let v2 : Int :=
          if 50 ≤ img.width ∧ img.width ≤ 500 ∧ 30 ≤ img.height ∧ img.height ≤ 300 then 20
          else if img.width < 50 ∨ img.height < 30 then -10 else 0
        let v3 : Int :=
          if img.rgbMode then
            match img.colorCount with
            | some n => if 1 ≤ n ∧ n ≤ 10 then 10 else if n > 50 then -10 else 0
            | none => 0
          else 0
        min (v1 + v2 + v3) 30

/-- Strategy 10 (`_find_logo_ai_analysis_strategy`): stable-sort the
collected candidates by confidence descending, take the top three, and
return the first whose confidence plus URL-feature plus visual-feature
score exceeds 0.6. -/
def findLogoAiAnalysisStrategy (net : Net) (_base : String) (cands : List Cand) :
    Option String :=
  if cands.isEmpty then none
  else
    let sorted := List.insertionSort (fun a b : Cand => b.confidence ≤ a.confidence) cands
    firstSome (fun c =>
      let total := c.confidence + analyzeLogoUrlFeatures c.url + analyzeLogoVisualFeatures net c.url
      if total > 60 then some c.url else none) (sorted.take 3)

/-- Stage 1 of the static pipeline: result and candidate list. -/
def s1Run (net : Net) (doc : Html) (base : String) : Option String × List Cand :=
  findLogoByAltAttribute net base (findHeaderElements doc) []

/-- Stage 2 result (collects no candidates). -/
def s2Run (doc : Html) (base : String) : Option String :=
  findLogoSvgElements (findHeaderElements doc) base

/-- Stage 3, threading the candidates collected so far. -/
def s3Run (net : Net) (doc : Html) (base : String) : Option String × List Cand :=
  findLogoInContainers net base (findHeaderElements doc) (s1Run net doc base).2

/-- Stage 4. -/
def s4Run (net : Net) (doc : Html) (base : String) : Option String × List Cand :=
  findLogoBySrcContent net base (findHeaderElements doc) (s3Run net doc base).2

/-- Stage 5. -/
def s5Run (net : Net) (doc : Html) (base : String) : Option String × List Cand :=
  findLogoByDataAttributes net base (findHeaderElements doc) (s4Run net doc base).2

/-- Stage 6. -/
def s6Run (net : Net) (doc : Html) (base : String) : Option String × List Cand :=
  findLogoByContextAnalysis net base (findHeaderElements doc) (s5Run net doc base).2

/-- Stage 7. -/
def s7Run (net : Net) (doc : Html) (base : String) : Option String × List Cand :=
  findLogoIntelligentFallback net base (findHeaderElements doc) (s6Run net doc base).2

/-- Stage 8 result (collects no candidates). -/
def s8Run (net : Net) (doc : Html) (base : String) : Option String :=
  findLogoFaviconStrategy net doc base

/-- Stage 9. -/
def s9Run (net : Net) (doc : Html) (base : String) : Option String × List Cand :=
  findLogoGlobalImagesStrategy net doc base (s7Run net doc base).2

/-- Stage 10 result, fed the candidates accumulated through stage 9. -/
def s10Run (net : Net) (doc : Html) (base : String) : Option String :=
  findLogoAiAnalysisStrategy net base (s9Run net doc base).2

/-- The static part of `extract_logo_from_website`: the ten strategies in
their fixed order, each running only when all earlier ones returned
nothing. -/
def runStatic (net : Net) (doc : Html) (base : String) : Option String :=
  (s1Run net doc base).1 <|> s2Run doc base <|> (s3Run net doc base).1 <|>
    (s4Run net doc base).1 <|> (s5Run net doc base).1 <|> (s6Run net doc base).1 <|>
    (s7Run net doc base).1 <|> s8Run net doc base <|> (s9Run net doc base).1 <|>
    s10Run net doc base

/-- Result of the k-th static strategy (0-based) in the threaded run, for
stating the priority-order property. -/
def stratResult (net : Net) (doc : Html) (base : String) : Nat → Option String
  | 0 => (s1Run net doc base).1
  | 1 => s2Run doc base
  | 2 => (s3Run net doc base).1
  | 3 => (s4Run net doc base).1
  | 4 => (s5Run net doc base).1
  | 5 => (s6Run net doc base).1
  | 6 => (s7Run net doc base).1
  | 7 => s8Run net doc base
  | 8 => (s9Run net doc base).1
  | 9 => s10Run net doc base
  | _ => none

/-- The five header selectors of the dynamic strategy (case-sensitive, as
written without the `i` flag). -/
def dynHeaderSelectors : List (Html → Bool) :=
  [ fun e => e.tag == "header",
    fun e => attrContainsCS e "class" "header",
    fun e => attrContainsCS e "id" "header",
    fun e => e.tag == "nav",
    fun e => attrContainsCS e "class" "navbar" ]

/-- Selector `img[alt*="logo" i], img[src*="logo" i]`. -/
def dynImgPred (e : Html) : Bool :=
  e.tag == "img" && (attrContainsCI e "alt" "logo" || attrContainsCI e "src" "logo")

/-- Selector `svg[class*="logo" i], svg[id*="logo" i]`. -/
def dynSvgPred (e : Html) : Bool :=
  e.tag == "svg" && (attrContainsCI e "class" "logo" || attrContainsCI e "id" "logo")

/-- Selector `a[href="/"], a[href="./"], a[class*="logo" i], a[class*="brand" i]`. -/
def dynLinkPred (e : Html) : Bool :=
  e.tag == "a" && (e.attr? "href" == some "/" || e.attr? "href" == some "./" ||
    attrContainsCI e "class" "logo" || attrContainsCI e "class" "brand")

/-- Dynamic-stage svg serialization: the element's inner HTML wrapped in
bare `svg` tags, base64-encoded, accepted from 51 characters of inner
markup up. -/
def dynSvgData (svg : Html) : Option String :=
  let content := serializeList svg.childList
  if strLen content > 50 then
    some ("data:image/svg+xml;base64," ++
      String.mk (b64encodeL (utf8Bytes ("<svg>" ++ content ++ "</svg>"))))
  else none

/-- Dynamic-stage image check: truthy src, joined onto the page URL, passed
through `validate_logo_image`. -/
def dynValidateImg (net : Net) (url : String) (img : Html) : Option String :=
  match img.attr? "src" with
  | some src =>
    if src ≠ "" then
      let full := urljoin url src
      if validateLogoImage net full then some full else none
    else none
  | none => none

/-- Model of `_find_logo_dynamic_strategy` over the Playwright-rendered DOM
(`dom`): per header selector and header, logo images, then logo svgs, then
home/brand links wrapping either. -/
def dynHeaderPhase (net : Net) (dom : Html) (url : String) : Option String :=
  firstSome (fun selPred =>
    firstSome (fun header =>
      match firstSome (dynValidateImg net url) (header.findAll dynImgPred) with
      | some u => some u
      | none =>
        match firstSome dynSvgData (header.findAll dynSvgPred) with
        | some u => some u
        | none =>
          firstSome (fun link =>
            match (link.findFirst (fun e => e.tag == "img")).bind (dynValidateImg net url) with
            | some u => some u
            | none => (link.findFirst (fun e => e.tag == "svg")).bind dynSvgData)
            (header.findAll dynLinkPred))
      ((nodesOne dom).filter selPred))
    dynHeaderSelectors

/-- Model of `_find_logo_dynamic_strategy`, continued: the header phase,
then the first five logo images of the whole rendered page. -/
def findLogoDynamicStrategy (net : Net) (dom : Html) (url : String) : Option String :=
  match dynHeaderPhase net dom url with
  | some u => some u
  | none => firstSome (dynValidateImg net url) (((nodesOne dom).filter dynImgPred).take 5)

/-- Model of `extract_logo_from_website` (`scraper_disruptafrica.py` lines
495-557, identical in `african_opportunities_scraper.py` lines 933-995).
`fetched` is the parsed primary page, `none` when `session.get` or
`raise_for_status` raised (DNS error, timeout, TLS error, non-200): the
raise lands in the outer `except Exception` which returns `None`.
`rendered` is the Playwright-rendered DOM, `none` when the browser failed
or was unavailable. `normUrl` is the `https://` scheme defaulting at the
top of the function. -/
def normUrl (websiteUrl : String) : String :=
  if strStartsWith websiteUrl "http://" || strStartsWith websiteUrl "https://"
    then websiteUrl else "https://" ++ websiteUrl

/-- Model of `extract_logo_from_website`, continued: the dispatch over
fetch result, static pipeline, and dynamic fallback. -/
def extractLogoFromWebsite (net : Net) (websiteUrl : String) (fetched : Option Html)
    (rendered : Option Html) : Option String :=
  let url := normUrl websiteUrl
  match fetched with
  | none => none
  | some doc =>
    match runStatic net doc url with
    | some u => some u
    | none =>
      match rendered with
      | none => none
      | some dom => findLogoDynamicStrategy net dom url

end Disrupt

/-- The URLs the svg `use`-reference path can return for a given document
and base: every `use` element's href processed by `useUrlOf`. -/
def useHrefUrls (doc : Html) (base : String) : List String :=
  ((nodesOne doc).filter (fun e => e.tag == "use")).filterMap
    (fun u => Disrupt.useUrlOf u base)

set_option maxRecDepth 40000

/-- Network oracle on which every request raises (offline). -/
def offlineNet : Net := { head := fun _ => none, get := fun _ => none, pil := fun _ => none }

/-- Network oracle on which every request answers 200 with an image
content type. -/
def acceptNet : Net :=
  { head := fun _ => some (200, "image/png"),
    get := fun _ => some (200, "image/png", []),
    pil := fun _ => none }

/-- A document with no images, no favicon links and no header content. -/
def emptyHtmlDoc : Html := .elem "html" [] []

/-- Rendered DOM holding a header logo image, for the dynamic stage. -/
def c1Dom : Html := .elem "html" []
  [.elem "header" [] [.elem "img" [("alt", "logo"), ("src", "https://cdn.x.com/logo.png")] []]]

/-- Oracle on which exactly the CDN logo of `c1Dom` is reachable. -/
def c1Net : Net :=
  { head := fun u => if u = "https://cdn.x.com/logo.png" then some (200, "image/png") else none,
    get := fun _ => none, pil := fun _ => none }

/-- Document whose header holds one keyword-alt logo image. -/
def c2Doc : Html := .elem "html" [] [.elem "body" [] [.elem "header" []
  [.elem "img" [("alt", "Company Logo"), ("src", "/img/logo.png")] []]]]

/-- The image element of `c2Doc`. -/
def c2Img : Html := .elem "img" [("alt", "Company Logo"), ("src", "/img/logo.png")] []

/-- Oracle on which exactly the normalized logo of `c2Doc` is reachable. -/
def c2Net : Net :=
  { head := fun u => if u = "https://example.org/img/logo.png" then some (200, "image/png") else none,
    get := fun _ => none, pil := fun _ => none }

/-- Document with one plain global image, no header regions. -/
def c3Doc : Html := .elem "html" [] [.elem "body" []
  [.elem "img" [("src", "https://ex.com/assets/x.png")] []]]

/-- Oracle on which the image of `c3Doc` is reachable and decodes to a
simple 100 x 50 image with 5 colors (favicon probes fail). -/
def c3Net : Net :=
  { head := fun u => if u = "https://ex.com/assets/x.png" then some (200, "image/png") else none,
    get := fun u => if u = "https://ex.com/assets/x.png" then some (200, "image/png", []) else none,
    pil := fun u => if u = "https://ex.com/assets/x.png" then
      some { width := 100, height := 50, rgbMode := true, colorCount := some 5 } else none }

/-- Document whose header svg carries a `use` reference to an
extension-less sprite URL. -/
def c4Doc : Html := .elem "html" [] [.elem "body" [] [.elem "header" []
  [.elem "svg" [("class", "logo")] [.elem "use" [("href", "https://ex.com/sprite")] []]]]]

/-- An inline logo svg whose serialized markup exceeds 100 characters and
contains a path primitive, with no `use` reference. -/
def c8Svg : Html := .elem "svg" [("class", "logo")]
  [.elem "path" [("d", "M0 0 L10 10 L20 20 L30 30 L40 40 L50 50 L60 60 L70 70 L80 80 L90 90 Z")] []]

/-- Document whose header svg carries a `use` reference to an 8-character
`http` URL. -/
def c10Doc : Html := .elem "html" [] [.elem "body" [] [.elem "header" []
  [.elem "svg" [("class", "logo")] [.elem "use" [("href", "http://a")] []]]]]

/-- Document with a single declared 64x64 icon link and nothing else. -/
def c9Doc : Html := .elem "html" [] [.elem "head" []
  [.elem "link" [("rel", "icon"), ("href", "/favicon.ico"), ("sizes", "64x64")] []]]

/-- Oracle on which exactly the site's `/favicon.ico` answers as an icon. -/
def c9Net : Net :=
  { head := fun u => if u = "https://example.com/favicon.ico"
      then some (200, "image/x-icon") else none,
    get := fun _ => none, pil := fun _ => none }

theorem firstSome_some {α β : Type} {f : α → Option β} {l : List α} {b : β}
    (h : firstSome f l = some b) : ∃ x ∈ l, f x = some b := by
  induction l with
  | nil => simp [firstSome] at h
  | cons x xs ih =>
    simp only [firstSome] at h
    cases hx : f x with
    | some b' =>
      rw [hx] at h
      exact ⟨x, List.mem_cons_self x xs, by rw [hx]; exact h⟩
    | none =>
      rw [hx] at h
      obtain ⟨y, hy, hfy⟩ := ih h
      exact ⟨y, List.mem_cons_of_mem _ hy, hfy⟩

theorem loopState_some {α : Type} {f : α → List Disrupt.Cand → Option String × List Disrupt.Cand}
    {l : List α} {cands cs : List Disrupt.Cand} {u : String}
    (h : Disrupt.loopState f l cands = (some u, cs)) :
    ∃ x ∈ l, ∃ c0 cs0, f x c0 = (some u, cs0) := by
  induction l generalizing cands with
  | nil => simp [Disrupt.loopState, Prod.ext_iff] at h
  | cons x xs ih =>
    simp only [Disrupt.loopState] at h
    cases hx : f x cands with
    | mk o cs' =>
      rw [hx] at h
      cases o with
      | some u' =>
        simp only at h
        have h1 : u' = u := by
          have := congrArg Prod.fst h
          simpa using this
        exact ⟨x, List.mem_cons_self x xs, cands, cs', by rw [hx, h1]⟩
      | none =>
        simp only at h
        obtain ⟨y, hy, c0, cs0, hf⟩ := ih h
        exact ⟨y, List.mem_cons_of_mem _ hy, c0, cs0, hf⟩

theorem isValidLogoCandidate_some (net : Net) (url : String) (img? : Option Html) (boost : Int) :
    Disrupt.isValidLogoCandidate net (some url) img? boost =
      Disrupt.isValidLogoCandidateStr net url img? boost := rfl

theorem validateLogoImage_url_ok {net : Net} {url : String}
    (h : Disrupt.validateLogoImage net url = true) :
    strStartsWith url "data:image/" = true ∨ Disrupt.hasValidExt url = true := by
  unfold Disrupt.validateLogoImage at h
  by_cases h1 : strLen url < 10
  · rw [if_pos h1] at h; simp at h
  · rw [if_neg h1] at h
    by_cases h2 : strStartsWith url "data:image/" = true
    · exact Or.inl h2
    · rw [if_neg h2] at h
      by_cases h3 : Disrupt.hasValidExt url = true
      · exact Or.inr h3
      · rw [if_pos h3] at h; simp at h

theorem gate_score {net : Net} {url : String} {img? : Option Html} {boost : Int}
    (h : Disrupt.isValidLogoCandidate net (some url) img? boost = true) :
    10 ≤ Disrupt.candidateScore url img? boost := by
  rw [isValidLogoCandidate_some] at h
  unfold Disrupt.isValidLogoCandidateStr at h
  by_cases h1 : url = ""
  · rw [if_pos h1] at h; simp at h
  · rw [if_neg h1] at h
    by_cases h2 : ¬ strStartsWith url "data:image/" = true ∧ ¬ Disrupt.hasValidExt url = true
    · rw [if_pos h2] at h; simp at h
    · rw [if_neg h2] at h
      by_cases h3 : ¬ strStartsWith url "data:" = true ∧
          ¬ Disrupt.validateLogoImageFast net url = true
      · rw [if_pos h3] at h; simp at h
      · rw [if_neg h3] at h
        exact of_decide_eq_true h

theorem gate_url_ok {net : Net} {url : String} {img? : Option Html} {boost : Int}
    (h : Disrupt.isValidLogoCandidate net (some url) img? boost = true) :
    strStartsWith url "data:image/" = true ∨ Disrupt.hasValidExt url = true := by
  rw [isValidLogoCandidate_some] at h
  unfold Disrupt.isValidLogoCandidateStr at h
  by_cases h1 : url = ""
  · rw [if_pos h1] at h; simp at h
  · rw [if_neg h1] at h
    by_cases h2 : ¬ strStartsWith url "data:image/" = true ∧ ¬ Disrupt.hasValidExt url = true
    · rw [if_pos h2] at h; simp at h
    · rcases not_and_or.mp h2 with hd | he
      · exact Or.inl (not_not.mp hd)
      · exact Or.inr (not_not.mp he)

theorem aiStrategy_mem {net : Net} {base : String} {cands : List Disrupt.Cand} {r : String}
    (h : Disrupt.findLogoAiAnalysisStrategy net base cands = some r) :
    ∃ c ∈ cands, c.url = r ∧
      60 < c.confidence + Disrupt.analyzeLogoUrlFeatures r + Disrupt.analyzeLogoVisualFeatures net r := by
  unfold Disrupt.findLogoAiAnalysisStrategy at h
  by_cases h1 : cands.isEmpty = true
  · rw [if_pos h1] at h; simp at h
  · rw [if_neg h1] at h
    obtain ⟨c, hc, hfc⟩ := firstSome_some h
    have hc' : c ∈ cands :=
      (List.Perm.mem_iff (List.perm_insertionSort _ cands)).mp (List.take_subset _ _ hc)
    simp only at hfc
    by_cases ht : 60 < c.confidence + Disrupt.analyzeLogoUrlFeatures c.url +
        Disrupt.analyzeLogoVisualFeatures net c.url
    · rw [if_pos ht] at hfc
      have hcr : c.url = r := by simpa using hfc
      subst hcr
      exact ⟨c, hc', rfl, ht⟩
    · rw [if_neg ht] at hfc
      simp at hfc

theorem dedupByPath_subset :
    ∀ (l : List (List Nat × Html)) (seen : List (List Nat)) (pe : List Nat × Html),
      pe ∈ Disrupt.dedupByPath l seen → pe ∈ l := by
  intro l
  induction l with
  | nil => intro seen pe h; simp [Disrupt.dedupByPath] at h
  | cons x xs ih =>
    intro seen pe h
    simp only [Disrupt.dedupByPath] at h
    split_ifs at h with h1
    · exact List.mem_cons_of_mem _ (ih seen pe h)
    · rcases List.mem_cons.mp h with rfl | h2
      · exact List.mem_cons_self _ _
      · exact List.mem_cons_of_mem _ (ih _ pe h2)

theorem findHeaderElements_mem {doc e : Html} (h : e ∈ Disrupt.findHeaderElements doc) :
    e ∈ nodesOne doc := by
  unfold Disrupt.findHeaderElements at h
  obtain ⟨pe, hpe, rfl⟩ := List.mem_map.mp h
  have hin := dedupByPath_subset _ _ _ hpe
  rcases List.mem_append.mp hin with hsel | hbody
  · obtain ⟨fl, hfl, hpefl⟩ := List.mem_flatten.mp hsel
    obtain ⟨pred, _, rfl⟩ := List.mem_map.mp hfl
    have : pe ∈ pnodesOne [] doc := (List.filter_sublist _).subset hpefl
    have hm : pe.2 ∈ (pnodesOne [] doc).map (·.2) := List.mem_map_of_mem _ this
    rwa [pnodesOne_map_snd] at hm
  · cases hb : (pnodesOne [] doc).find? (fun pe => pe.2.tag == "body") with
    | none => rw [hb] at hbody; simp at hbody
    | some bp =>
      rw [hb] at hbody
      have h1 : pe ∈ pnodesMany bp.1 0 bp.2.childList := by
        have := (List.filter_sublist _).subset hbody
        have := List.take_subset _ _ this
        exact (List.filter_sublist _).subset this
      have h2 : pe.2 ∈ (pnodesMany bp.1 0 bp.2.childList).map (·.2) := List.mem_map_of_mem _ h1
      rw [pnodesMany_map_snd] at h2
      have hbpmem : bp ∈ pnodesOne [] doc := List.mem_of_find?_eq_some hb
      have hbp2 : bp.2 ∈ nodesOne doc := by
        have hm : bp.2 ∈ (pnodesOne [] doc).map (·.2) := List.mem_map_of_mem _ hbpmem
        rwa [pnodesOne_map_snd] at hm
      cases hc : bp.2 with
      | text s => rw [hc] at h2; simp [Html.childList, nodesMany] at h2
      | elem t a cs =>
        rw [hc] at h2
        simp only [Html.childList] at h2
        have : pe.2 ∈ nodesOne (.elem t a cs) := by
          simp only [nodesOne, List.mem_cons]
          exact Or.inr h2
        rw [← hc] at this
        exact mem_nodesOne_trans doc bp.2 pe.2 hbp2 this

theorem gateReturn_some {net : Net} {u : Option String} {img? : Option Html}
    {boost conf : Int} {strat : String} {cands cs : List Disrupt.Cand} {r : String}
    (h : Disrupt.gateReturn net u img? boost conf strat cands = (some r, cs)) :
    Disrupt.isValidLogoCandidate net (some r) img? boost = true := by
  unfold Disrupt.gateReturn at h
  split at h
  · next hgate =>
      have hu : u = some r := by
        have := congrArg Prod.fst h
        simpa using this
      rwa [hu] at hgate
  · simp [Prod.ext_iff] at h

theorem s1Img_some {net : Net} {base : String} {img : Html} {cands cs : List Disrupt.Cand}
    {r : String} (h : Disrupt.s1Img net base img cands = (some r, cs)) :
    ∃ (img? : Option Html) (boost : Int),
      Disrupt.isValidLogoCandidate net (some r) img? boost = true := by
  unfold Disrupt.s1Img at h
  simp only [] at h
  repeat split at h
  all_goals first
    | exact ⟨some img, 40, gateReturn_some h⟩
    | simp [Prod.ext_iff] at h

theorem s3Block1_some {net : Net} {base : String} {c : Html} {cands cs : List Disrupt.Cand}
    {r : String} (h : Disrupt.s3Block1 net base c cands = (some r, cs)) :
    ∃ (img? : Option Html) (boost : Int),
      Disrupt.isValidLogoCandidate net (some r) img? boost = true := by
  unfold Disrupt.s3Block1 at h
  repeat split at h
  all_goals first
    | exact ⟨_, _, gateReturn_some h⟩
    | simp [Prod.ext_iff] at h

theorem s3Block2_some {net : Net} {base : String} {c : Html} {cands cs : List Disrupt.Cand}
    {r : String} (h : Disrupt.s3Block2 net base c cands = (some r, cs)) :
    ∃ (img? : Option Html) (boost : Int),
      Disrupt.isValidLogoCandidate net (some r) img? boost = true := by
  unfold Disrupt.s3Block2 at h
  repeat split at h
  all_goals first
    | exact ⟨_, _, gateReturn_some h⟩
    | simp [Prod.ext_iff] at h

theorem s3Container_some {net : Net} {base : String} {c : Html} {cands cs : List Disrupt.Cand}
    {r : String} (h : Disrupt.s3Container net base c cands = (some r, cs)) :
    ∃ (img? : Option Html) (boost : Int),
      Disrupt.isValidLogoCandidate net (some r) img? boost = true := by
  unfold Disrupt.s3Container at h
  split at h
  · next u cs' heq =>
      have : u = r := by
        have := congrArg Prod.fst h
        simpa using this
      subst this
      exact s3Block1_some heq
  · next cs' heq => exact s3Block2_some h

theorem s4Img_some {net : Net} {base : String} {img : Html} {cands cs : List Disrupt.Cand}
    {r : String} (h : Disrupt.s4Img net base img cands = (some r, cs)) :
    ∃ (img? : Option Html) (boost : Int),
      Disrupt.isValidLogoCandidate net (some r) img? boost = true := by
  unfold Disrupt.s4Img at h
  simp only [] at h
  repeat split at h
  all_goals first
    | exact ⟨_, _, gateReturn_some h⟩
    | simp [Prod.ext_iff] at h

theorem s5Attr_some {net : Net} {base : String} {img : Html} {attr : String × String}
    {cands cs : List Disrupt.Cand} {r : String}
    (h : Disrupt.s5Attr net base img attr cands = (some r, cs)) :
    ∃ (img? : Option Html) (boost : Int),
      Disrupt.isValidLogoCandidate net (some r) img? boost = true := by
  unfold Disrupt.s5Attr at h
  repeat split at h
  all_goals first
    | exact ⟨_, _, gateReturn_some h⟩
    | simp [Prod.ext_iff] at h

theorem s6ImgPart_some {net : Net} {base : String} {link : Html} {cands cs : List Disrupt.Cand}
    {r : String} (h : Disrupt.s6ImgPart net base link cands = (some r, cs)) :
    ∃ (img? : Option Html) (boost : Int),
      Disrupt.isValidLogoCandidate net (some r) img? boost = true := by
  unfold Disrupt.s6ImgPart at h
  repeat split at h
  all_goals first
    | exact ⟨_, _, gateReturn_some h⟩
    | simp [Prod.ext_iff] at h

theorem s6SvgPart_some {base : String} {link : Html} {cands cs : List Disrupt.Cand}
    {r : String} (h : Disrupt.s6SvgPart base link cands = (some r, cs)) :
    ∃ svg ∈ link.descendants, Disrupt.extractSvgAsLogo svg base = some r := by
  unfold Disrupt.s6SvgPart at h
  split at h
  · next svg heq =>
      have hf : Disrupt.extractSvgAsLogo svg base = some r := by
        have := congrArg Prod.fst h
        simpa using this
      exact ⟨svg, findFirst_mem_descendants heq, hf⟩
  · simp [Prod.ext_iff] at h

theorem s6Link_some {net : Net} {base : String} {link : Html} {cands cs : List Disrupt.Cand}
    {r : String} (h : Disrupt.s6Link net base link cands = (some r, cs)) :
    (∃ (img? : Option Html) (boost : Int),
        Disrupt.isValidLogoCandidate net (some r) img? boost = true) ∨
      ∃ svg ∈ link.descendants, Disrupt.extractSvgAsLogo svg base = some r := by
  unfold Disrupt.s6Link at h
  simp only [] at h
  split at h
  · split at h
    · next u cs' heq =>
        have : u = r := by
          have := congrArg Prod.fst h
          simpa using this
        subst this
        exact Or.inl (s6ImgPart_some heq)
    · exact Or.inr (s6SvgPart_some h)
  · simp [Prod.ext_iff] at h

theorem s7Img_some {net : Net} {base : String} {img : Html} {cands cs : List Disrupt.Cand}
    {r : String} (h : Disrupt.s7Img net base img cands = (some r, cs)) :
    ∃ (img? : Option Html) (boost : Int),
      Disrupt.isValidLogoCandidate net (some r) img? boost = true := by
  unfold Disrupt.s7Img at h
  simp only [] at h
  repeat' split at h
  all_goals first
    | exact ⟨_, _, gateReturn_some h⟩
    | simp [Prod.ext_iff] at h

theorem s9Img_some {net : Net} {base : String} {img : Html} {cands cs : List Disrupt.Cand}
    {r : String} (h : Disrupt.s9Img net base img cands = (some r, cs)) :
    ∃ (img? : Option Html) (boost : Int),
      Disrupt.isValidLogoCandidate net (some r) img? boost = true := by
  unfold Disrupt.s9Img at h
  simp only [] at h
  repeat' split at h
  all_goals first
    | exact ⟨_, _, gateReturn_some h⟩
    | simp [Prod.ext_iff] at h

theorem isPrefixOf_append {p : List Char} :
    ∀ {q : List Char}, p.isPrefixOf q = true → ∀ t, p.isPrefixOf (q ++ t) = true := by
  induction p with
  | nil => intro q _ t; simp [List.isPrefixOf]
  | cons a as ih =>
    intro q h t
    cases q with
    | nil => simp [List.isPrefixOf] at h
    | cons b bs =>
      simp only [List.isPrefixOf, Bool.and_eq_true] at h ⊢
      exact ⟨h.1, ih h.2 t⟩

theorem dataUri_startsWith (x : String) :
    strStartsWith ("data:image/svg+xml;base64," ++ x) "data:image/" = true := by
  unfold strStartsWith
  rw [String.data_append]
  exact isPrefixOf_append (by decide) _

theorem findFirst_prop {a b : Html} {p : Html → Bool} (h : a.findFirst p = some b) :
    p b = true :=
  (List.mem_filter.mp (List.mem_of_mem_head? h)).2

theorem extractSvgAsLogo_cases {svg : Html} {base r : String}
    (h : Disrupt.extractSvgAsLogo svg base = some r) :
    strStartsWith r "data:image/" = true ∨
      ∃ use ∈ svg.descendants, use.tag = "use" ∧ Disrupt.useUrlOf use base = some r := by
  unfold Disrupt.extractSvgAsLogo at h
  cases hu : Disrupt.extractSvgUseBranch svg base with
  | some u =>
    rw [hu] at h
    have hur : u = r := by simpa using h
    subst hur
    unfold Disrupt.extractSvgUseBranch at hu
    obtain ⟨use, hfind, hurl⟩ := Option.bind_eq_some.mp hu
    refine Or.inr ⟨use, findFirst_mem_descendants hfind, ?_, hurl⟩
    exact eq_of_beq (findFirst_prop hfind)
  | none =>
    rw [hu] at h
    simp only [] at h
    split at h
    · have : ("data:image/svg+xml;base64," ++
          String.mk (b64encodeL (utf8Bytes (serialize svg)))) = r := by simpa using h
      rw [← this]
      exact Or.inl (dataUri_startsWith _)
    · simp at h

theorem mem_useHrefUrls {doc use : Html} {base r : String} (hmem : use ∈ nodesOne doc)
    (htag : use.tag = "use") (hurl : Disrupt.useUrlOf use base = some r) :
    r ∈ useHrefUrls doc base :=
  List.mem_filterMap.mpr ⟨use, List.mem_filter.mpr ⟨hmem, by simp [htag]⟩, hurl⟩

theorem findLogoSvgElements_some {headers : List Html} {base r : String}
    (h : Disrupt.findLogoSvgElements headers base = some r) :
    ∃ hh ∈ headers, ∃ svg ∈ nodesOne hh, Disrupt.extractSvgAsLogo svg base = some r := by
  obtain ⟨hh, hmem, hfh⟩ := firstSome_some h
  refine ⟨hh, hmem, ?_⟩
  cases e1 : firstSome (fun svg => Disrupt.extractSvgAsLogo svg base)
      (hh.findAll (fun e => e.tag == "svg" && Disrupt.classTokenContainsCI e "logo")) with
  | some u =>
    rw [e1] at hfh
    have : u = r := by simpa using hfh
    subst this
    obtain ⟨svg, hsm, hex⟩ := firstSome_some e1
    exact ⟨svg, mem_nodesOne_of_findAll hsm, hex⟩
  | none =>
    rw [e1] at hfh
    cases e2 : firstSome (fun svg => Disrupt.extractSvgAsLogo svg base)
        (hh.findAll (fun e => e.tag == "svg" && Disrupt.idContainsCI e "logo")) with
    | some u =>
      rw [e2] at hfh
      have : u = r := by simpa using hfh
      subst this
      obtain ⟨svg, hsm, hex⟩ := firstSome_some e2
      exact ⟨svg, mem_nodesOne_of_findAll hsm, hex⟩
    | none =>
      rw [e2] at hfh
      obtain ⟨c, hcm, hbind⟩ := firstSome_some hfh
      obtain ⟨svg, hfind, hex⟩ := Option.bind_eq_some.mp hbind
      have hsvg1 : svg ∈ nodesOne c := mem_nodesOne_of_mem_descendants (findFirst_mem_descendants hfind)
      exact ⟨svg, mem_nodesOne_trans hh c svg (mem_nodesOne_of_findAll hcm) hsvg1, hex⟩

theorem findLogoByAltAttribute_some {net : Net} {base : String} {headers : List Html}
    {cands cs : List Disrupt.Cand} {r : String}
    (h : Disrupt.findLogoByAltAttribute net base headers cands = (some r, cs)) :
    ∃ (img? : Option Html) (boost : Int),
      Disrupt.isValidLogoCandidate net (some r) img? boost = true := by
  obtain ⟨hh, _, c0, cs0, h1⟩ := loopState_some h
  obtain ⟨img, _, c1, cs1, h2⟩ := loopState_some h1
  exact s1Img_some h2

theorem findLogoInContainers_some {net : Net} {base : String} {headers : List Html}
    {cands cs : List Disrupt.Cand} {r : String}
    (h : Disrupt.findLogoInContainers net base headers cands = (some r, cs)) :
    ∃ (img? : Option Html) (boost : Int),
      Disrupt.isValidLogoCandidate net (some r) img? boost = true := by
  obtain ⟨hh, _, c0, cs0, h1⟩ := loopState_some h
  obtain ⟨sel, _, c1, cs1, h2⟩ := loopState_some h1
  obtain ⟨c, _, c2, cs2, h3⟩ := loopState_some h2
  exact s3Container_some h3

theorem findLogoBySrcContent_some {net : Net} {base : String} {headers : List Html}
    {cands cs : List Disrupt.Cand} {r : String}
    (h : Disrupt.findLogoBySrcContent net base headers cands = (some r, cs)) :
    ∃ (img? : Option Html) (boost : Int),
      Disrupt.isValidLogoCandidate net (some r) img? boost = true := by
  obtain ⟨hh, _, c0, cs0, h1⟩ := loopState_some h
  obtain ⟨img, _, c1, cs1, h2⟩ := loopState_some h1
  exact s4Img_some h2

theorem findLogoByDataAttributes_some {net : Net} {base : String} {headers : List Html}
    {cands cs : List Disrupt.Cand} {r : String}
    (h : Disrupt.findLogoByDataAttributes net base headers cands = (some r, cs)) :
    ∃ (img? : Option Html) (boost : Int),
      Disrupt.isValidLogoCandidate net (some r) img? boost = true := by
  obtain ⟨hh, _, c0, cs0, h1⟩ := loopState_some h
  obtain ⟨img, _, c1, cs1, h2⟩ := loopState_some h1
  obtain ⟨attr, _, c2, cs2, h3⟩ := loopState_some h2
  exact s5Attr_some h3

theorem findLogoByContextAnalysis_some {net : Net} {base : String} {headers : List Html}
    {cands cs : List Disrupt.Cand} {r : String}
    (h : Disrupt.findLogoByContextAnalysis net base headers cands = (some r, cs)) :
    (∃ (img? : Option Html) (boost : Int),
        Disrupt.isValidLogoCandidate net (some r) img? boost = true) ∨
      ∃ hh ∈ headers, ∃ svg ∈ nodesOne hh, Disrupt.extractSvgAsLogo svg base = some r := by
  obtain ⟨hh, hhm, c0, cs0, h1⟩ := loopState_some h
  obtain ⟨link, hlm, c1, cs1, h2⟩ := loopState_some h1
  rcases s6Link_some h2 with hg | ⟨svg, hsvgm, hex⟩
  · exact Or.inl hg
  · refine Or.inr ⟨hh, hhm, svg, ?_, hex⟩
    exact mem_nodesOne_trans hh link svg (mem_nodesOne_of_findAll hlm)
      (mem_nodesOne_of_mem_descendants hsvgm)

theorem findLogoIntelligentFallback_some {net : Net} {base : String} {headers : List Html}
    {cands cs : List Disrupt.Cand} {r : String}
    (h : Disrupt.findLogoIntelligentFallback net base headers cands = (some r, cs)) :
    ∃ (img? : Option Html) (boost : Int),
      Disrupt.isValidLogoCandidate net (some r) img? boost = true := by
  obtain ⟨hh, _, c0, cs0, h1⟩ := loopState_some h
  obtain ⟨img, _, c1, cs1, h2⟩ := loopState_some h1
  exact s7Img_some h2

theorem findLogoGlobalImagesStrategy_some {net : Net} {doc : Html} {base : String}
    {cands cs : List Disrupt.Cand} {r : String}
    (h : Disrupt.findLogoGlobalImagesStrategy net doc base cands = (some r, cs)) :
    ∃ (img? : Option Html) (boost : Int),
      Disrupt.isValidLogoCandidate net (some r) img? boost = true := by
  obtain ⟨img, _, c0, cs0, h1⟩ := loopState_some h
  exact s9Img_some h1

theorem findLogoFaviconStrategy_some {net : Net} {doc : Html} {base r : String}
    (h : Disrupt.findLogoFaviconStrategy net doc base = some r) :
    Disrupt.validateLogoImage net r = true := by
  unfold Disrupt.findLogoFaviconStrategy at h
  simp only [] at h
  split at h
  · next hv =>
      have : Disrupt.urljoin base "/favicon.ico" = r := by simpa using h
      rwa [this] at hv
  · obtain ⟨c, _, hc⟩ := firstSome_some h
    split at hc
    · next hv =>
        have : c.1 = r := by simpa using hc
        rwa [this] at hv
    · simp at hc

theorem dynValidateImg_some {net : Net} {url : String} {img : Html} {r : String}
    (h : Disrupt.dynValidateImg net url img = some r) :
    Disrupt.validateLogoImage net r = true := by
  unfold Disrupt.dynValidateImg at h
  split at h
  · split at h
    · simp only [] at h
      split at h
      · next hv =>
          injection h with h'
          rwa [h'] at hv
      · simp at h
    · simp at h
  · simp at h

theorem dynSvgData_some {svg : Html} {r : String} (h : Disrupt.dynSvgData svg = some r) :
    strStartsWith r "data:image/" = true := by
  unfold Disrupt.dynSvgData at h
  simp only [] at h
  split at h
  · have : ("data:image/svg+xml;base64," ++
        String.mk (b64encodeL (utf8Bytes ("<svg>" ++ serializeList svg.childList ++ "</svg>")))) = r := by
      simpa using h
    rw [← this]
    exact dataUri_startsWith _
  · simp at h

theorem dynHeaderPhase_some {net : Net} {dom : Html} {url r : String}
    (h : Disrupt.dynHeaderPhase net dom url = some r) :
    strStartsWith r "data:image/" = true ∨ Disrupt.validateLogoImage net r = true := by
  unfold Disrupt.dynHeaderPhase at h
  obtain ⟨selPred, _, h1⟩ := firstSome_some h
  obtain ⟨header, _, h2⟩ := firstSome_some h1
  split at h2
  · next u' himg =>
      have : u' = r := by simpa using h2
      subst this
      obtain ⟨img, _, hv⟩ := firstSome_some himg
      exact Or.inr (dynValidateImg_some hv)
  · split at h2
    · next u' hsvg =>
        have : u' = r := by simpa using h2
        subst this
        obtain ⟨svg, _, hv⟩ := firstSome_some hsvg
        exact Or.inl (dynSvgData_some hv)
    · obtain ⟨link, _, h3⟩ := firstSome_some h2
      split at h3
      · next u' hbind =>
          have : u' = r := by simpa using h3
          subst this
          obtain ⟨img, _, hv⟩ := Option.bind_eq_some.mp hbind
          exact Or.inr (dynValidateImg_some hv)
      · obtain ⟨svg, _, hv⟩ := Option.bind_eq_some.mp h3
        exact Or.inl (dynSvgData_some hv)

theorem findLogoDynamicStrategy_some {net : Net} {dom : Html} {url r : String}
    (h : Disrupt.findLogoDynamicStrategy net dom url = some r) :
    strStartsWith r "data:image/" = true ∨ Disrupt.validateLogoImage net r = true := by
  unfold Disrupt.findLogoDynamicStrategy at h
  split at h
  · next u hphase =>
      have : u = r := by simpa using h
      subst this
      exact dynHeaderPhase_some hphase
  · obtain ⟨img, _, hv⟩ := firstSome_some h
    exact Or.inr (dynValidateImg_some hv)

theorem runStatic_provenance {net : Net} {doc : Html} {base r : String}
    (hres : Disrupt.runStatic net doc base = some r)
    (hdata : strStartsWith r "data:image/" = false) :
    Disrupt.hasValidExt r = true ∨ r ∈ useHrefUrls doc base ∨
      r ∈ ((Disrupt.s9Run net doc base).2).map Disrupt.Cand.url := by
  have hgate : ∀ (img? : Option Html) (boost : Int),
      Disrupt.isValidLogoCandidate net (some r) img? boost = true →
      Disrupt.hasValidExt r = true := by
    intro img? boost hg
    rcases gate_url_ok hg with hd | he
    · rw [hd] at hdata; cases hdata
    · exact he
  have hsvgcase : ∀ {hh : Html}, hh ∈ Disrupt.findHeaderElements doc →
      ∀ {svg : Html}, svg ∈ nodesOne hh → Disrupt.extractSvgAsLogo svg base = some r →
      r ∈ useHrefUrls doc base := by
    intro hh hhm svg hsvgm hex
    rcases extractSvgAsLogo_cases hex with hd | ⟨use, husem, htag, hurl⟩
    · rw [hd] at hdata; cases hdata
    · have h1 : svg ∈ nodesOne doc :=
        mem_nodesOne_trans doc hh svg (findHeaderElements_mem hhm) hsvgm
      have h2 : use ∈ nodesOne doc :=
        mem_nodesOne_trans doc svg use h1 (mem_nodesOne_of_mem_descendants husem)
      exact mem_useHrefUrls h2 htag hurl
  unfold Disrupt.runStatic at hres
  cases ho1 : (Disrupt.s1Run net doc base).1 with
  | some u =>
    rw [ho1] at hres
    simp only [Option.some_orElse] at hres
    have hur : u = r := by simpa using hres
    subst hur
    have hp : Disrupt.s1Run net doc base = (some u, (Disrupt.s1Run net doc base).2) := by
      rw [← ho1]
    unfold Disrupt.s1Run at hp
    obtain ⟨img?, boost, hg⟩ := findLogoByAltAttribute_some hp
    exact Or.inl (hgate _ _ hg)
  | none =>
  rw [ho1] at hres
  simp only [Option.none_orElse] at hres
  cases ho2 : Disrupt.s2Run doc base with
  | some u =>
    rw [ho2] at hres
    simp only [Option.some_orElse] at hres
    have hur : u = r := by simpa using hres
    subst hur
    unfold Disrupt.s2Run at ho2
    obtain ⟨hh, hhm, svg, hsvgm, hex⟩ := findLogoSvgElements_some ho2
    exact Or.inr (Or.inl (hsvgcase hhm hsvgm hex))
  | none =>
  rw [ho2] at hres
  simp only [Option.none_orElse] at hres
  cases ho3 : (Disrupt.s3Run net doc base).1 with
  | some u =>
    rw [ho3] at hres
    simp only [Option.some_orElse] at hres
    have hur : u = r := by simpa using hres
    subst hur
    have hp : Disrupt.s3Run net doc base = (some u, (Disrupt.s3Run net doc base).2) := by
      rw [← ho3]
    unfold Disrupt.s3Run at hp
    obtain ⟨img?, boost, hg⟩ := findLogoInContainers_some hp
    exact Or.inl (hgate _ _ hg)
  | none =>
  rw [ho3] at hres
  simp only [Option.none_orElse] at hres
  cases ho4 : (Disrupt.s4Run net doc base).1 with
  | some u =>
    rw [ho4] at hres
    simp only [Option.some_orElse] at hres
    have hur : u = r := by simpa using hres
    subst hur
    have hp : Disrupt.s4Run net doc base = (some u, (Disrupt.s4Run net doc base).2) := by
      rw [← ho4]
    unfold Disrupt.s4Run at hp
    obtain ⟨img?, boost, hg⟩ := findLogoBySrcContent_some hp
    exact Or.inl (hgate _ _ hg)
  | none =>
  rw [ho4] at hres
  simp only [Option.none_orElse] at hres
  cases ho5 : (Disrupt.s5Run net doc base).1 with
  | some u =>
    rw [ho5] at hres
    simp only [Option.some_orElse] at hres
    have hur : u = r := by simpa using hres
    subst hur
    have hp : Disrupt.s5Run net doc base = (some u, (Disrupt.s5Run net doc base).2) := by
      rw [← ho5]
    unfold Disrupt.s5Run at hp
    obtain ⟨img?, boost, hg⟩ := findLogoByDataAttributes_some hp
    exact Or.inl (hgate _ _ hg)
  | none =>
  rw [ho5] at hres
  simp only [Option.none_orElse] at hres
  cases ho6 : (Disrupt.s6Run net doc base).1 with
  | some u =>
    rw [ho6] at hres
    simp only [Option.some_orElse] at hres
    have hur : u = r := by simpa using hres
    subst hur
    have hp : Disrupt.s6Run net doc base = (some u, (Disrupt.s6Run net doc base).2) := by
      rw [← ho6]
    unfold Disrupt.s6Run at hp
    rcases findLogoByContextAnalysis_some hp with ⟨img?, boost, hg⟩ | ⟨hh, hhm, svg, hsvgm, hex⟩
    · exact Or.inl (hgate _ _ hg)
    · exact Or.inr (Or.inl (hsvgcase hhm hsvgm hex))
  | none =>
  rw [ho6] at hres
  simp only [Option.none_orElse] at hres
  cases ho7 : (Disrupt.s7Run net doc base).1 with
  | some u =>
    rw [ho7] at hres
    simp only [Option.some_orElse] at hres
    have hur : u = r := by simpa using hres
    subst hur
    have hp : Disrupt.s7Run net doc base = (some u, (Disrupt.s7Run net doc base).2) := by
      rw [← ho7]
    unfold Disrupt.s7Run at hp
    obtain ⟨img?, boost, hg⟩ := findLogoIntelligentFallback_some hp
    exact Or.inl (hgate _ _ hg)
  | none =>
  rw [ho7] at hres
  simp only [Option.none_orElse] at hres
  cases ho8 : Disrupt.s8Run net doc base with
  | some u =>
    rw [ho8] at hres
    simp only [Option.some_orElse] at hres
    have hur : u = r := by simpa using hres
    subst hur
    unfold Disrupt.s8Run at ho8
    rcases validateLogoImage_url_ok (findLogoFaviconStrategy_some ho8) with hd | he
    · rw [hd] at hdata; cases hdata
    · exact Or.inl he
  | none =>
  rw [ho8] at hres
  simp only [Option.none_orElse] at hres
  cases ho9 : (Disrupt.s9Run net doc base).1 with
  | some u =>
    rw [ho9] at hres
    simp only [Option.some_orElse] at hres
    have hur : u = r := by simpa using hres
    subst hur
    have hp : Disrupt.s9Run net doc base = (some u, (Disrupt.s9Run net doc base).2) := by
      rw [← ho9]
    unfold Disrupt.s9Run at hp
    obtain ⟨img?, boost, hg⟩ := findLogoGlobalImagesStrategy_some hp
    exact Or.inl (hgate _ _ hg)
  | none =>
  rw [ho9] at hres
  simp only [Option.none_orElse] at hres
  unfold Disrupt.s10Run at hres
  obtain ⟨c, hc, hcr, _⟩ := aiStrategy_mem hres
  exact Or.inr (Or.inr (List.mem_map.mpr ⟨c, hc, hcr⟩))

/-- C1: the claim says that on a primary-page fetch failure the resolver
proceeds directly to the dynamic fallback, so a logo can still be returned
from the rendered DOM. This is false on the code: the fetch raise lands in
the outer `except Exception` of `extract_logo_from_website`, which returns
`None` immediately. Here the rendered DOM contains a logo the dynamic
strategy does find, yet the resolver returns `None` on fetch failure. -/
theorem c1_counterexample :
    Disrupt.findLogoDynamicStrategy c1Net c1Dom "https://x.com" = some "https://cdn.x.com/logo.png" ∧
    Disrupt.extractLogoFromWebsite c1Net "https://x.com" none (some c1Dom) = none := by
  constructor
  · decide
  · decide

/-- C1 (amended): on a primary fetch failure the resolver returns `None`
without running the dynamic stage; the dynamic fallback is attempted only
after a successful fetch on which all static strategies found nothing. -/
theorem c1_amended (net : Net) (websiteUrl : String) (rendered : Option Html) (doc : Html) :
    Disrupt.extractLogoFromWebsite net websiteUrl none rendered = none ∧
    (Disrupt.runStatic net doc (Disrupt.normUrl websiteUrl) = none →
      Disrupt.extractLogoFromWebsite net websiteUrl (some doc) rendered =
        rendered.bind (fun dom =>
          Disrupt.findLogoDynamicStrategy net dom (Disrupt.normUrl websiteUrl))) := by
  constructor
  · rfl
  · intro hs
    cases rendered with
    | none => simp [Disrupt.extractLogoFromWebsite, hs]
    | some dom =>
      simp only [Disrupt.extractLogoFromWebsite, hs]
      cases hdyn : Disrupt.findLogoDynamicStrategy net dom (Disrupt.normUrl websiteUrl) <;>
        simp [hdyn]

/-- Witness for the amended C1 at a concrete offline input. -/
theorem c1_amended_witness :
    Disrupt.extractLogoFromWebsite offlineNet "https://example.com" none none = none ∧
    Disrupt.extractLogoFromWebsite offlineNet "https://example.com" (some emptyHtmlDoc) none =
      Option.bind none (fun dom =>
        Disrupt.findLogoDynamicStrategy offlineNet dom (Disrupt.normUrl "https://example.com")) := by
  have h := c1_amended offlineNet "https://example.com" none emptyHtmlDoc
  exact ⟨h.1, h.2 (by decide)⟩

/-- C2: for a fixed document and a fixed validation oracle the resolver is
a pure function, so repeated calls agree; and its result is that of the
first strategy in the fixed priority order S1..S9 (indices 0..8 of
`stratResult`) that yields a passing candidate: when every earlier strategy
returned nothing and strategy `k` returns `u`, the whole static resolution
returns `u`. -/
theorem c2_priority (net : Net) (doc : Html) (base : String) (k : Nat) (u : String)
    (hk : k < 9) (hprev : ∀ j, j < k → Disrupt.stratResult net doc base j = none)
    (hit : Disrupt.stratResult net doc base k = some u) :
    Disrupt.runStatic net doc base = some u ∧
      Disrupt.runStatic net doc base = Disrupt.runStatic net doc base := by
  refine ⟨?_, rfl⟩
  interval_cases k
  · simp only [Disrupt.stratResult] at hit
    unfold Disrupt.runStatic
    rw [hit]
    simp
  · have e0 := hprev 0 (by norm_num)
    simp only [Disrupt.stratResult] at hit e0
    unfold Disrupt.runStatic
    rw [e0, hit]
    simp
  · have e0 := hprev 0 (by norm_num)
    have e1 := hprev 1 (by norm_num)
    simp only [Disrupt.stratResult] at hit e0 e1
    unfold Disrupt.runStatic
    rw [e0, e1, hit]
    simp
  · have e0 := hprev 0 (by norm_num)
    have e1 := hprev 1 (by norm_num)
    have e2 := hprev 2 (by norm_num)
    simp only [Disrupt.stratResult] at hit e0 e1 e2
    unfold Disrupt.runStatic
    rw [e0, e1, e2, hit]
    simp
  · have e0 := hprev 0 (by norm_num)
    have e1 := hprev 1 (by norm_num)
    have e2 := hprev 2 (by norm_num)
    have e3 := hprev 3 (by norm_num)
    simp only [Disrupt.stratResult] at hit e0 e1 e2 e3
    unfold Disrupt.runStatic
    rw [e0, e1, e2, e3, hit]
    simp
  · have e0 := hprev 0 (by norm_num)
    have e1 := hprev 1 (by norm_num)
    have e2 := hprev 2 (by norm_num)
    have e3 := hprev 3 (by norm_num)
    have e4 := hprev 4 (by norm_num)
    simp only [Disrupt.stratResult] at hit e0 e1 e2 e3 e4
    unfold Disrupt.runStatic
    rw [e0, e1, e2, e3, e4, hit]
    simp
  · have e0 := hprev 0 (by norm_num)
    have e1 := hprev 1 (by norm_num)
    have e2 := hprev 2 (by norm_num)
    have e3 := hprev 3 (by norm_num)
    have e4 := hprev 4 (by norm_num)
    have e5 := hprev 5 (by norm_num)
    simp only [Disrupt.stratResult] at hit e0 e1 e2 e3 e4 e5
    unfold Disrupt.runStatic
    rw [e0, e1, e2, e3, e4, e5, hit]
    simp
  · have e0 := hprev 0 (by norm_num)
    have e1 := hprev 1 (by norm_num)
    have e2 := hprev 2 (by norm_num)
    have e3 := hprev 3 (by norm_num)
    have e4 := hprev 4 (by norm_num)
    have e5 := hprev 5 (by norm_num)
    have e6 := hprev 6 (by norm_num)
    simp only [Disrupt.stratResult] at hit e0 e1 e2 e3 e4 e5 e6
    unfold Disrupt.runStatic
    rw [e0, e1, e2, e3, e4, e5, e6, hit]
    simp
  · have e0 := hprev 0 (by norm_num)
    have e1 := hprev 1 (by norm_num)
    have e2 := hprev 2 (by norm_num)
    have e3 := hprev 3 (by norm_num)
    have e4 := hprev 4 (by norm_num)
    have e5 := hprev 5 (by norm_num)
    have e6 := hprev 6 (by norm_num)
    have e7 := hprev 7 (by norm_num)
    simp only [Disrupt.stratResult] at hit e0 e1 e2 e3 e4 e5 e6 e7
    unfold Disrupt.runStatic
    rw [e0, e1, e2, e3, e4, e5, e6, e7, hit]
    simp

/-- Witness for C2 at a concrete document whose strategy 1 hits. -/
theorem c2_priority_witness :
    Disrupt.runStatic c2Net c2Doc "https://example.org/about" =
      some "https://example.org/img/logo.png" :=
  (c2_priority c2Net c2Doc "https://example.org/about" 0 "https://example.org/img/logo.png"
    (by norm_num) (fun j hj => absurd hj (by omega)) (by decide)).1

/-- C3: the claim says every candidate returned as the final result has a
computed confidence score of at least 0.1. This is false on the code: the
re-ranking stage (strategy 10) returns a collected candidate when
`confidence + url_score + visual_score > 0.6`, which can hold for a
candidate whose computed confidence is 0.05 (here: boost 0.05 from
strategy 9, url features 0.3, visual features 0.3). The resolver returns
it although its recorded confidence, 5 hundredths, is below 10 (= 0.1). -/
theorem c3_counterexample :
    Disrupt.runStatic c3Net c3Doc "https://ex.com" = some "https://ex.com/assets/x.png" ∧
    (Disrupt.s9Run c3Net c3Doc "https://ex.com").2 =
      [{ url := "https://ex.com/assets/x.png", confidence := 5,
         strategy := "Strategie 9 - Global", alt := "", cls := "",
         src := "https://ex.com/assets/x.png" }] ∧
    ((5 : Int) < 10) := by
  refine ⟨by decide, by decide, by decide⟩

/-- C3 (amended): every candidate returned through the per-strategy
validity gate `_is_valid_logo_candidate` has computed confidence at least
0.1 (10 hundredths); the re-ranking stage can return a collected candidate
of lower confidence, but only when its combined confidence + URL-feature +
visual-feature score exceeds 0.6 (60 hundredths). -/
theorem c3_amended :
    (∀ (net : Net) (url : String) (img? : Option Html) (boost : Int),
      Disrupt.isValidLogoCandidate net (some url) img? boost = true →
        10 ≤ Disrupt.candidateScore url img? boost) ∧
    (∀ (net : Net) (base : String) (cands : List Disrupt.Cand) (r : String),
      Disrupt.findLogoAiAnalysisStrategy net base cands = some r →
        ∃ c ∈ cands, c.url = r ∧
          60 < c.confidence + Disrupt.analyzeLogoUrlFeatures r +
            Disrupt.analyzeLogoVisualFeatures net r) :=
  ⟨fun _ _ _ _ h => gate_score h, fun _ _ _ _ h => aiStrategy_mem h⟩

/-- Witness for the amended C3: a concrete gate-passing candidate scores at
least 0.1. -/
theorem c3_amended_witness :
    10 ≤ Disrupt.candidateScore "https://example.org/img/logo.png" (some c2Img) 40 :=
  c3_amended.1 c2Net "https://example.org/img/logo.png" (some c2Img) 40 (by decide)

/-- C4: the claim says every non-data-URI result contains one of the
accepted image extensions. This is false on the code: the svg
`use`-reference path of `_extract_svg_as_logo` returns the href unchecked.
Here the resolver (offline, so no validation could have passed) returns
`https://ex.com/sprite`, which contains no accepted extension and is not a
data URI. -/
theorem c4_counterexample :
    Disrupt.runStatic offlineNet c4Doc "https://ex.com" = some "https://ex.com/sprite" ∧
    Disrupt.hasValidExt "https://ex.com/sprite" = false ∧
    strStartsWith "https://ex.com/sprite" "data:image/" = false := by
  refine ⟨by decide, by decide, by decide⟩

/-- C4 (amended): every non-data-URI result of the resolver contains one of
the accepted extensions, unless it was taken from an svg `use` reference or
returned by the re-ranking stage out of the collected candidate list; the
dynamic stage's results always satisfy the extension check. -/
theorem c4_amended (net : Net) (websiteUrl : String) (fetched rendered : Option Html)
    (r : String)
    (hres : Disrupt.extractLogoFromWebsite net websiteUrl fetched rendered = some r)
    (hdata : strStartsWith r "data:image/" = false) :
    Disrupt.hasValidExt r = true ∨
      ∃ doc, fetched = some doc ∧
        (r ∈ useHrefUrls doc (Disrupt.normUrl websiteUrl) ∨
          r ∈ ((Disrupt.s9Run net doc (Disrupt.normUrl websiteUrl)).2).map Disrupt.Cand.url) := by
  unfold Disrupt.extractLogoFromWebsite at hres
  cases fetched with
  | none => simp at hres
  | some doc =>
    simp only [] at hres
    cases hrs : Disrupt.runStatic net doc (Disrupt.normUrl websiteUrl) with
    | some u =>
      rw [hrs] at hres
      have hur : u = r := by simpa using hres
      subst hur
      rcases runStatic_provenance hrs hdata with he | hu | hc
      · exact Or.inl he
      · exact Or.inr ⟨doc, rfl, Or.inl hu⟩
      · exact Or.inr ⟨doc, rfl, Or.inr hc⟩
    | none =>
      rw [hrs] at hres
      cases rendered with
      | none => simp at hres
      | some dom =>
        rcases findLogoDynamicStrategy_some hres with hd | hv
        · rw [hd] at hdata; cases hdata
        · rcases validateLogoImage_url_ok hv with hd | he
          · rw [hd] at hdata; cases hdata
          · exact Or.inl he

/-- Witness for the amended C4 at a concrete successful resolution. -/
theorem c4_amended_witness :
    Disrupt.hasValidExt "https://example.org/img/logo.png" = true ∨
      ∃ doc, (some c2Doc : Option Html) = some doc ∧
        ("https://example.org/img/logo.png" ∈ useHrefUrls doc (Disrupt.normUrl "https://example.org/about") ∨
          "https://example.org/img/logo.png" ∈
            ((Disrupt.s9Run c2Net doc (Disrupt.normUrl "https://example.org/about")).2).map Disrupt.Cand.url) :=
  c4_amended c2Net "https://example.org/about" (some c2Doc) none
    "https://example.org/img/logo.png" (by decide) (by decide)

/-- C5: the claim says a scheme-relative src (`//host/path`) passes through
unchanged. This is false on the code: `_normalize_logo_url` tests
`startswith('/')` before considering scheme-relative srcs, so the base's
scheme and netloc are prepended, yielding `https://example.org//cdn...`
rather than the unchanged src. -/
theorem c5_counterexample :
    Disrupt.normalizeLogoUrl "//cdn.example.com/img/logo.png" "https://example.org/about" =
      some "https://example.org//cdn.example.com/img/logo.png" ∧
    ¬ Disrupt.normalizeLogoUrl "//cdn.example.com/img/logo.png" "https://example.org/about" =
      some "//cdn.example.com/img/logo.png" := by
  refine ⟨by decide, by decide⟩

/-- C5 (amended): a root-relative src on base `https://example.org/about`
resolves against the base's scheme and netloc (so `/img/logo.png` gives
`https://example.org/img/logo.png`); a fully-qualified http(s) src passes
through unchanged; every src starting with a slash -- including
scheme-relative `//host/path` srcs, which do not pass through unchanged --
gets the base's scheme and netloc prepended; every other non-empty src is
resolved by relative-URL joining against the base. -/
theorem c5_amended :
    (Disrupt.normalizeLogoUrl "/img/logo.png" "https://example.org/about" =
      some "https://example.org/img/logo.png") ∧
    (∀ src base : String,
      strStartsWith src "http://" = true ∨ strStartsWith src "https://" = true →
      Disrupt.normalizeLogoUrl src base = some src) ∧
    (∀ src base : String, src ≠ "" → strStartsWith src "/" = true →
      strStartsWith src "http://" = false → strStartsWith src "https://" = false →
      Disrupt.normalizeLogoUrl src base =
        some ((Disrupt.urlparseSchemeNetloc base).1 ++ "://" ++
          (Disrupt.urlparseSchemeNetloc base).2 ++ src)) ∧
    (∀ src base : String, src ≠ "" → strStartsWith src "/" = false →
      strStartsWith src "http://" = false → strStartsWith src "https://" = false →
      Disrupt.normalizeLogoUrl src base = some (Disrupt.urljoin base src)) := by
  refine ⟨by decide, ?_, ?_, ?_⟩
  · intro src base h
    have hne : ¬ src = "" := by
      intro he
      subst he
      rcases h with h | h <;> simp [strStartsWith, List.isPrefixOf] at h
    have hor : (strStartsWith src "http://" || strStartsWith src "https://") = true := by
      rcases h with h | h <;> simp [h]
    unfold Disrupt.normalizeLogoUrl
    rw [if_neg hne, if_pos hor]
  · intro src base hne hsl h1 h2
    have hor : (strStartsWith src "http://" || strStartsWith src "https://") = false := by
      simp [h1, h2]
    unfold Disrupt.normalizeLogoUrl
    rw [if_neg hne, if_neg (by simp [hor]), if_pos hsl]
  · intro src base hne hsl h1 h2
    have hor : (strStartsWith src "http://" || strStartsWith src "https://") = false := by
      simp [h1, h2]
    unfold Disrupt.normalizeLogoUrl
    rw [if_neg hne, if_neg (by simp [hor]), if_neg (by simp [hsl])]

/-- Witness for the amended C5: a fully-qualified src passes through. -/
theorem c5_amended_witness :
    Disrupt.normalizeLogoUrl "https://cdn.example.com/logo.png" "https://example.org/about" =
      some "https://cdn.example.com/logo.png" :=
  c5_amended.2.1 "https://cdn.example.com/logo.png" "https://example.org/about"
    (Or.inr (by decide))

/-- C6: the resolver never raises for ordinary network or content
conditions -- in this embedding every function is total, all Python
exception paths being mapped to `none`/`false` values -- and on an empty
document (no images, no favicon links), with every network probe failing
and the rendered DOM equally empty, it returns `None` rather than an
error. -/
theorem c6_empty_document (net : Net) (hh : net.head = fun _ => none)
    (hg : net.get = fun _ => none) (hp : net.pil = fun _ => none) :
    Disrupt.extractLogoFromWebsite net "https://example.com"
      (some emptyHtmlDoc) (some emptyHtmlDoc) = none := by
  obtain ⟨nh, ng, np⟩ := net
  have hh' : nh = fun _ => none := hh
  have hg' : ng = fun _ => none := hg
  have hp' : np = fun _ => none := hp
  subst hh' hg' hp'
  decide

/-- Witness for C6 at the concrete offline oracle. -/
theorem c6_empty_document_witness :
    Disrupt.extractLogoFromWebsite offlineNet "https://example.com"
      (some emptyHtmlDoc) (some emptyHtmlDoc) = none :=
  c6_empty_document offlineNet rfl rfl rfl

/-- C7: the claim says a network failure during validation never makes the
validator accept a candidate, in every variant. This is false on the code
of `scraper_dy_vc4a.py`: its `_is_valid_logo_candidate` only decides by
content type on a 200 answer and otherwise falls through to `return True`,
so a candidate whose HEAD request raises (offline oracle) is accepted. -/
theorem c7_counterexample :
    Vc4a.isValidLogoCandidate offlineNet (some "https://ex.com/our-logo.png") none = true ∧
    offlineNet.head "https://ex.com/our-logo.png" = none :=
  ⟨by decide, rfl⟩

/-- C7 (amended): in the disruptafrica fast validator every reachability
failure -- both requests raising, a non-200 status, or a non-image content
type -- yields invalid (and, the embedding being total, no exception
propagates); in the dy_vc4a candidate validator a raising HEAD request
instead yields accept (fail-open). -/
theorem c7_amended :
    (∀ (net : Net) (url : String), strStartsWith url "data:image/" = false →
      net.head url = none → net.get url = none →
      Disrupt.validateLogoImageFast net url = false) ∧
    (∀ (net : Net) (url : String) (st : Nat) (ct : String),
      strStartsWith url "data:image/" = false → net.head url = some (st, ct) →
      st ≠ 200 → Disrupt.validateLogoImageFast net url = false) ∧
    (∀ (net : Net) (url : String) (ct : String),
      strStartsWith url "data:image/" = false → net.head url = some (200, ct) →
      Disrupt.ctHasImageLower ct = false → Disrupt.validateLogoImageFast net url = false) ∧
    (∀ (net : Net) (url : String) (img? : Option Html), url ≠ "" →
      strStartsWith url "data:image/" = false → Vc4a.hasValidExt url = true →
      net.head url = none → Vc4a.isValidLogoCandidate net (some url) img? = true) := by
  refine ⟨?_, ?_, ?_, ?_⟩
  · intro net url hdata hhead hget
    unfold Disrupt.validateLogoImageFast
    split_ifs with h1 h2 h3
    · rfl
    · rw [hdata] at h2; cases h2
    · simp [hhead, hget]
    · rfl
  · intro net url st ct hdata hhead hst
    unfold Disrupt.validateLogoImageFast
    split_ifs with h1 h2 h3
    · rfl
    · rw [hdata] at h2; cases h2
    · simp [hhead, hst]
    · rfl
  · intro net url ct hdata hhead hct
    unfold Disrupt.validateLogoImageFast
    split_ifs with h1 h2 h3
    · rfl
    · rw [hdata] at h2; cases h2
    · simp [hhead, hct]
    · rfl
  · intro net url img? hne hdata hext hhead
    unfold Vc4a.isValidLogoCandidate
    simp [hne, hdata, hext, hhead]

/-- Witness for the amended C7 at concrete offline inputs. -/
theorem c7_amended_witness :
    Disrupt.validateLogoImageFast offlineNet "https://ex.com/a-logo.png" = false ∧
    Vc4a.isValidLogoCandidate offlineNet (some "https://ex.com/b-logo.png") none = true :=
  ⟨c7_amended.1 offlineNet "https://ex.com/a-logo.png" (by decide) rfl rfl,
   c7_amended.2.2.2 offlineNet "https://ex.com/b-logo.png" none (by decide) (by decide)
     (by decide) rfl⟩

/-- C8: for an inline svg whose serialized markup exceeds 100 characters
and contains `path`, with no `use href` reference, the extraction helper
the resolver's svg strategies return from yields exactly
`data:image/svg+xml;base64,` followed by the base64 encoding of the
UTF-8 bytes of the serialized markup, and decoding that base64 payload
gives back those very bytes -- the original serialized markup, path data
included. -/
theorem c8_svg_roundtrip (svg : Html) (base : String)
    (huse : Disrupt.extractSvgUseBranch svg base = none)
    (hlen : strLen (serialize svg) > 100)
    (hpath : strContains (serialize svg) "path" = true) :
    Disrupt.extractSvgAsLogo svg base =
      some ("data:image/svg+xml;base64," ++
        String.mk (b64encodeL (utf8Bytes (serialize svg)))) ∧
    b64decodeL (b64encodeL (utf8Bytes (serialize svg))) = utf8Bytes (serialize svg) := by
  constructor
  · have hok : Disrupt.svgMarkupOk (serialize svg) = true := by
      unfold Disrupt.svgMarkupOk
      simp [hlen, hpath]
    unfold Disrupt.extractSvgAsLogo
    rw [huse]
    simp only [hok]
    simp
  · exact b64_roundtrip _ (utf8Bytes_lt _)

/-- Witness for C8 at a concrete inline svg. -/
theorem c8_svg_roundtrip_witness :
    Disrupt.extractSvgAsLogo c8Svg "https://example.com" =
      some ("data:image/svg+xml;base64," ++
        String.mk (b64encodeL (utf8Bytes (serialize c8Svg)))) ∧
    b64decodeL (b64encodeL (utf8Bytes (serialize c8Svg))) = utf8Bytes (serialize c8Svg) :=
  c8_svg_roundtrip c8Svg "https://example.com" (by decide) (by decide) (by decide)

/-- C9: the favicon strategy first probes `/favicon.ico` directly and
returns it when image validation passes; declared favicon links are scored
by their `sizes` attribute as 0.3 from 64x64, 0.2 from 32x32, else 0.1 (in
hundredths: 30/20/10); and on a document with no header-region matches, a
single `<link rel="icon" href="/favicon.ico" sizes="64x64">` and no other
images, resolution reaches strategy 8 and returns `/favicon.ico` resolved
to the absolute `https://example.com/favicon.ico`. -/
theorem c9_favicon (net : Net) (doc : Html) (base : String) :
    (Disrupt.validateLogoImage net (Disrupt.urljoin base "/favicon.ico") = true →
      Disrupt.findLogoFaviconStrategy net doc base =
        some (Disrupt.urljoin base "/favicon.ico")) ∧
    Disrupt.faviconSizeScore "64x64" = 30 ∧
    Disrupt.faviconSizeScore "32x32" = 20 ∧
    Disrupt.faviconSizeScore "16x16" = 10 ∧
    Disrupt.runStatic c9Net c9Doc "https://example.com" =
      some "https://example.com/favicon.ico" := by
  refine ⟨?_, by decide, by decide, by decide, by decide⟩
  intro h
  unfold Disrupt.findLogoFaviconStrategy
  simp only [h]
  simp

/-- Witness for C9 at the concrete favicon-only document. -/
theorem c9_favicon_witness :
    Disrupt.findLogoFaviconStrategy c9Net c9Doc "https://example.com" =
      some (Disrupt.urljoin "https://example.com" "/favicon.ico") :=
  (c9_favicon c9Net c9Doc "https://example.com").1 (by decide)

/-- C10: the claim says that because the validators reject every URL
string shorter than 10 characters, no non-data-URI logo URL of fewer than
10 characters can ever be validated or returned. The validation half is
right, but the "never returned" consequence is false on the code: the svg
`use`-reference path of `_extract_svg_as_logo` returns any `http...` href
without validation, so the resolver here returns the 8-character
`http://a` (not a data URI) on an offline oracle, although no validator --
even on an oracle where every request answers 200 with an image content
type -- would ever accept it. -/
theorem c10_counterexample :
    Disrupt.runStatic offlineNet c10Doc "https://ex.com" = some "http://a" ∧
    strLen "http://a" < 10 ∧
    strStartsWith "http://a" "data:image/" = false ∧
    Disrupt.validateLogoImageFast acceptNet "http://a" = false ∧
    Disrupt.validateLogoImage acceptNet "http://a" = false := by
  refine ⟨by decide, by decide, by decide, by decide, by decide⟩

/-- C10 (amended): both image-validation functions reject every URL string
shorter than 10 characters outright -- the length test precedes any
data-URI, extension or network consideration -- so no logo URL under 10
characters can ever pass validation, whatever its extension or
reachability; such a URL can nevertheless be returned by the resolver,
through the unvalidated svg `use`-reference path. -/
theorem c10_short_url (net : Net) (url : String) (h : strLen url < 10) :
    Disrupt.validateLogoImageFast net url = false ∧
    Disrupt.validateLogoImage net url = false :=
  ⟨by unfold Disrupt.validateLogoImageFast; rw [if_pos h],
   by unfold Disrupt.validateLogoImage; rw [if_pos h]⟩

/-- Witness for C10: `logo.png` (8 characters) is rejected even on an
oracle where every request answers 200 with an image content type. -/
theorem c10_short_url_witness :
    Disrupt.validateLogoImageFast acceptNet "logo.png" = false ∧
    Disrupt.validateLogoImage acceptNet "logo.png" = false :=
  c10_short_url acceptNet "logo.png" (by decide)
